import Mathlib

/-!
# Verification of the position-receipt API's bounded on-chain history estimator

Shallow embedding of the core scanner/estimator code of the repository
(`app/services/rpc.py`, `app/services/first_seen.py`, `app/services/transfers.py`,
`app/config.py`, `app/utils/evm.py`) together with proofs about the claims of the
specification.

Modelling conventions:
* The RPC boundary is modelled by explicit environment records: an environment
  assigns to every request the response (or failure) the chain node would give,
  plus the number of HTTP requests the transport issued for that logical call
  (retries and sub-range re-issues happen inside the transport).
* `time.monotonic()` is modelled by an explicit elapsed-milliseconds counter that
  advances by an environment-chosen duration at every RPC call; the float second
  budgets (1.0/2.0/3.0 s) become 1000/2000/3000 ms.
* Python exceptions become `Except Unit`; code that catches exceptions per
  chunk/record matches on the `Except`.
* `while` loops become fuel-indexed structural recursions; the fuel passed at the
  call site provably dominates the number of iterations, so the recursion is an
  exact image of the Python loop (each constructor step is one loop iteration).
* Python's `list.sort(key=..., reverse=True)` (a stable descending sort by key)
  is embedded as a stable insertion sort by the same key with the same string
  comparison Python uses (code-point lexicographic).
* Floating point `amount` strings (`str(raw / 10**decimals)`) are not modelled;
  transfer records carry the raw integer amount instead.  No claim concerns the
  amount field.
-/

deriving instance DecidableEq for Except

namespace PositionReceipt

/-! ## Python string comparison (used by `list.sort` on the timestamp key) -/

/-- Python compares strings lexicographically by code point (`a < b`). -/
def pyStrLtL : List Char → List Char → Bool
  | [], [] => false
  | [], _ :: _ => true
  | _ :: _, [] => false
  | a :: as, b :: bs =>
    if a.toNat < b.toNat then true
    else if b.toNat < a.toNat then false
    else pyStrLtL as bs

/-- `a <= b` on Python strings (total order, so `a <= b` iff `not (b < a)`). -/
def pyStrLe (a b : String) : Bool := !(pyStrLtL b.toList a.toList)

/-! ## Stable descending sort by a string key

Embeds Python's `entries.sort(key=lambda x: x["timestamp"], reverse=True)`:
stable, descending in the key.  Insertion sort that inserts each element in
front of the first element whose key is `<=` its own key is exactly that. -/

def insertDescBy (key : α → String) (a : α) : List α → List α
  | [] => [a]
  | b :: bs => if pyStrLe (key b) (key a) then a :: b :: bs else b :: insertDescBy key a bs

def sortDescBy (key : α → String) : List α → List α
  | [] => []
  | a :: as => insertDescBy key a (sortDescBy key as)

/-! ## `datetime.fromtimestamp(t, tz=timezone.utc).isoformat()`

Epoch seconds to `YYYY-MM-DDTHH:MM:SS+00:00`.  The civil-from-days conversion is
the standard Gregorian calendar algorithm; `padNum` is the zero padding of
`isoformat` (year to 4 digits, the rest to 2). -/

def padNum (width n : Nat) : String :=
  let s := toString n
  if s.length < width then String.mk (List.replicate (width - s.length) '0') ++ s else s

/-- Gregorian (year, month, day) of a day count since 1970-01-01 (days `>= 0`). -/
def civilFromDays (days : Nat) : Nat × Nat × Nat :=
  let z := days + 719468
  let era := z / 146097
  let doe := z % 146097
  let yoe := (doe - doe / 1460 + doe / 36524 - doe / 146097) / 365
  let y := yoe + era * 400
  let doy := doe - (365 * yoe + yoe / 4 - yoe / 100)
  let mp := (5 * doy + 2) / 153
  let d := doy - (153 * mp + 2) / 5 + 1
  let m := if mp < 10 then mp + 3 else mp - 9
  (if m ≤ 2 then y + 1 else y, m, d)

/-- `datetime.fromtimestamp(t, tz=timezone.utc).isoformat()` for `t : Nat`. -/
def isoformatUTC (t : Nat) : String :=
  let (y, m, d) := civilFromDays (t / 86400)
  let secs := t % 86400
  padNum 4 y ++ "-" ++ padNum 2 m ++ "-" ++ padNum 2 d ++ "T" ++
    padNum 2 (secs / 3600) ++ ":" ++ padNum 2 (secs % 3600 / 60) ++ ":" ++
    padNum 2 (secs % 60) ++ "+00:00"

/-- Modelled from the spec: "timestamp: nullable ISO-8601 UTC string".  A valid
ISO-8601 UTC timestamp string is `YYYY-MM-DDTHH:MM:SS` followed by exactly one
UTC designator, either `Z` or the offset `+00:00`. -/
def isValidIso8601UTC (s : String) : Bool :=
  match s.toList with
  | y1 :: y2 :: y3 :: y4 :: '-' :: m1 :: m2 :: '-' :: d1 :: d2 :: 'T' ::
    h1 :: h2 :: ':' :: n1 :: n2 :: ':' :: s1 :: s2 :: tz =>
    (y1.isDigit && y2.isDigit && y3.isDigit && y4.isDigit &&
     m1.isDigit && m2.isDigit && d1.isDigit && d2.isDigit &&
     h1.isDigit && h2.isDigit && n1.isDigit && n2.isDigit &&
     s1.isDigit && s2.isDigit) &&
    (tz = ['Z'] || tz = ['+', '0', '0', ':', '0', '0'])
  | _ => false

/-! ## Config (`app/config.py`) -/

structure DepthConfig where
  base_days : Nat
  sol_sigs : Nat
  max_rpc_calls : Nat
  max_time_ms : Nat
deriving Repr, DecidableEq

def fastConfig : DepthConfig := { base_days := 30, sol_sigs := 200, max_rpc_calls := 8, max_time_ms := 1000 }
def standardConfig : DepthConfig := { base_days := 90, sol_sigs := 500, max_rpc_calls := 12, max_time_ms := 2000 }
def deepConfig : DepthConfig := { base_days := 180, sol_sigs := 1000, max_rpc_calls := 16, max_time_ms := 3000 }

/-- `DEPTH_CONFIG[depth]` (`None` models the `KeyError` of a bad key). -/
def DEPTH_CONFIG : String → Option DepthConfig
  | "fast" => some fastConfig
  | "standard" => some standardConfig
  | "deep" => some deepConfig
  | _ => none

structure BaseTransferBudget where
  max_rpc_calls : Nat
  max_time_ms : Nat
  chunk_size : Nat
  target_inbound : Nat
  target_outbound : Nat
deriving Repr, DecidableEq

def baseTransferBudget : BaseTransferBudget :=
  { max_rpc_calls := 10, max_time_ms := 1000, chunk_size := 25000
    target_inbound := 5, target_outbound := 5 }

structure SolTransferBudget where
  max_tx_parsed : Nat
  max_time_ms : Nat
  sig_fetch_limit : Nat
  target_inbound : Nat
  target_outbound : Nat
  parallel_batch_size : Nat
deriving Repr, DecidableEq

def solTransferBudget : SolTransferBudget :=
  { max_tx_parsed := 20, max_time_ms := 1000, sig_fetch_limit := 30
    target_inbound := 5, target_outbound := 5, parallel_batch_size := 5 }

/-! ## EVM utilities (`app/utils/evm.py`) -/

/-- `unpad_address`: `"0x" + padded[-40:]`, empty input maps to `""`. -/
def unpad_address (padded : String) : String :=
  if padded = "" then "" else "0x" ++ String.mk ((padded.toList.reverse.take 40).reverse)

/-! ## RPC transport retry loop (`app/services/rpc.py`, `_rpc_with_retry`)

One logical call may issue several HTTP requests: retryable failures (status
429/502/503, connect/timeout errors) are retried up to `_MAX_RETRIES = 3` times,
rotating through fallback URLs.  The estimators and scanners never see those
extra requests: they count one unit of budget per *logical* call.  The model
below replays the retry loop over an environment-chosen outcome per attempt and
reports both the final result and the number of HTTP requests issued. -/

inductive Attempt (α : Type) where
  /-- HTTP status in {429, 502, 503}. -/
  | retryableStatus
  /-- `httpx.TimeoutException` / `httpx.ConnectError`. -/
  | connectFailure
  /-- non-retryable HTTP error status (raises `HTTPStatusError` at once). -/
  | fatalStatus
  /-- 200 response whose JSON-RPC body carries an `error` field (raises). -/
  | rpcError
  /-- 200 response with a `result` field. -/
  | ok (result : α)
deriving Repr, DecidableEq

def MAX_RETRIES : Nat := 3

/-- Outcome of attempt number `attempt`: `some` = loop finishes with that
result, `none` = retry (sleep with backoff, rotate URL, next attempt). -/
def attemptStep (a : Attempt α) (canRetry : Bool) : Option (Except Unit α) :=
  match a with
  | .ok r => some (.ok r)
  | .fatalStatus => some (.error ())
  | .rpcError => some (.error ())
  | .retryableStatus => if canRetry then none else some (.error ())
  | .connectFailure => if canRetry then none else some (.error ())

def rpcRetryLoop (outcomes : Nat → Attempt α) : Nat → Nat → Except Unit α × Nat
  | 0, _ => (.error (), 0)
  | fuel + 1, attempt =>
    match attemptStep (outcomes attempt) (decide (attempt < MAX_RETRIES)) with
    | some r => (r, 1)
    | none =>
      let rest := rpcRetryLoop outcomes fuel (attempt + 1)
      (rest.1, rest.2 + 1)

/-- `_rpc_with_retry`: result and number of HTTP requests issued. -/
def rpcWithRetry (outcomes : Nat → Attempt α) : Except Unit α × Nat :=
  rpcRetryLoop outcomes (MAX_RETRIES + 1) 0

/-- A logical RPC call as the scanners see it: the transport's final answer and
how many HTTP requests the transport spent producing it. -/
structure RpcResp (α : Type) where
  result : Except Unit α
  requests : Nat
deriving Repr, DecidableEq

/-- Package a transport run as a logical response. -/
def RpcResp.ofOutcomes (outcomes : Nat → Attempt α) : RpcResp α :=
  { result := (rpcWithRetry outcomes).1, requests := (rpcWithRetry outcomes).2 }

/-- A call that succeeds on the first attempt. -/
def RpcResp.pure (a : α) : RpcResp α := { result := .ok a, requests := 1 }

/-- A call that fails (non-retryably) on the first attempt. -/
def RpcResp.fail : RpcResp α := { result := .error (), requests := 1 }

/-! ## Shared log / result shapes -/

/-- One `eth_getLogs` entry, already decoded from its hex fields:
`blockNumber`, integer `data`, `topics`, `transactionHash`. -/
structure EthLog where
  blockNumber : Nat
  data : Nat
  topics : List String
  transactionHash : String
deriving Repr, DecidableEq

/-- The dict shape returned by both first-seen estimators. -/
structure FirstSeenResult where
  timestamp : Option String
  confidence : String
  method : String
  scanWindow : String
  note : String
deriving Repr, DecidableEq

/-! ## Base first-seen estimator (`app/services/first_seen.py`) -/

def CHUNK_SIZE : Nat := 50000

/-- `_budget_exceeded(calls_used, max_calls, start_time, max_time)`. -/
def budgetExceeded (callsUsed maxCalls elapsedMs maxTimeMs : Nat) : Bool :=
  callsUsed ≥ maxCalls || elapsedMs > maxTimeMs

/-- RPC environment of one Base first-seen scan.  `getLogs` is keyed by the
`(fromBlock, toBlock)` range of the filter (token address and padded wallet
topic are fixed throughout one scan, so they are not part of the key).
`durationMs k` is how much the monotonic clock advances during logical call
number `k` (including any in-transport retry backoff). -/
structure BaseEnv where
  blockNumber : RpcResp Nat
  blockTimestamp : Nat → RpcResp Nat
  getLogs : Nat → Nat → RpcResp (List EthLog)
  now : Nat
  durationMs : Nat → Nat

/-- The chunk list: `while cursor < current_block` partitioning into
`CHUNK_SIZE` pieces.  Structural recursion on a fuel that dominates the
iteration count (the cursor strictly increases each iteration). -/
def buildChunks : Nat → Nat → Nat → List (Nat × Nat)
  | 0, _, _ => []
  | fuel + 1, cursor, currentBlock =>
    if cursor < currentBlock then
      let chunkEnd := min (cursor + CHUNK_SIZE) currentBlock
      (cursor, chunkEnd) :: buildChunks fuel (chunkEnd + 1) currentBlock
    else []

/-- `_timestamp_to_block` after the block-timestamp call already resolved:
`max(0, current_block - int((current_ts - target_ts) / 2.0))`.  The float
division by the average block time 2.0 is exact integer halving (toward zero,
as Python's `int()`). -/
def timestampToBlock (currentTs : Nat) (targetTs : Int) (currentBlock : Nat) : Nat :=
  if (currentTs : Int) ≥ targetTs then
    currentBlock - ((currentTs : Int) - targetTs).toNat / 2
  else
    currentBlock + ((targetTs - (currentTs : Int)).toNat / 2)

/-- `logs.sort(key=blockNumber); logs[0]["blockNumber"]` — the least block
number in a non-empty list (0 for `[]`, never used there). -/
def minBlock : List EthLog → Nat
  | [] => 0
  | lg :: rest => rest.foldl (fun m x => min m x.blockNumber) lg.blockNumber

/-- Mutable state of the chunk loop. -/
structure BaseScanState where
  callsUsed : Nat
  requests : Nat
  elapsedMs : Nat
  earliestBlock : Option Nat
  earliestTimestamp : Option Nat
  hitCap : Bool
deriving Repr, DecidableEq

/-- Account one logical RPC call: budget `+1`, HTTP requests, clock advance. -/
def BaseScanState.charge (st : BaseScanState) (env : BaseEnv) (reqs : Nat) : BaseScanState :=
  { st with callsUsed := st.callsUsed + 1, requests := st.requests + reqs
            elapsedMs := st.elapsedMs + env.durationMs st.callsUsed }

/-- The one-shot narrowing sub-query issued inside the first chunk containing
matches: budget-gated, halves the span `[chunk_start, earliest_block]`, and
tolerates failure (keeps the wider candidate, still consumes budget). -/
def narrowStep (env : BaseEnv) (maxCalls maxTimeMs chunkStart eb : Nat)
    (st1 : BaseScanState) : Nat × BaseScanState :=
  if !budgetExceeded (st1.callsUsed + 1) maxCalls st1.elapsedMs maxTimeMs
      && decide (eb - chunkStart > 10000) then
    let mid := chunkStart + (eb - chunkStart) / 2
    let resp2 := env.getLogs chunkStart mid
    let st2 := st1.charge env resp2.requests
    match resp2.result with
    | .error _ => (eb, st2)
    | .ok subLogs => (if subLogs.isEmpty then eb else minBlock subLogs, st2)
  else (eb, st1)

/-- The budget-gated `_get_block_timestamp` call issued for the candidate block
before the loop breaks (`earliest_timestamp` stays `None` when skipped or when
the call fails). -/
def finishStep (env : BaseEnv) (maxCalls maxTimeMs eb2 : Nat)
    (stN : BaseScanState) : BaseScanState :=
  if !budgetExceeded stN.callsUsed maxCalls stN.elapsedMs maxTimeMs then
    let resp3 := env.blockTimestamp eb2
    let st3 := stN.charge env resp3.requests
    { st3 with earliestBlock := some eb2, earliestTimestamp := resp3.result.toOption }
  else
    { stN with earliestBlock := some eb2, earliestTimestamp := none }

/-- The `for chunk in chunks` loop of `estimate_first_seen_base`, including the
narrowing sub-query and the final block-timestamp call that happen inside the
first chunk with matches (then `break`). -/
def scanChunks (env : BaseEnv) (maxCalls maxTimeMs : Nat) :
    List (Nat × Nat) → BaseScanState → BaseScanState
  | [], st => st
  | (chunkStart, _chunkEnd) :: rest, st =>
    if budgetExceeded st.callsUsed maxCalls st.elapsedMs maxTimeMs then
      { st with hitCap := true }
    else
      let resp := env.getLogs chunkStart _chunkEnd
      let st1 := st.charge env resp.requests
      match resp.result with
      | .error _ => scanChunks env maxCalls maxTimeMs rest st1
      | .ok logs =>
        if logs.isEmpty then scanChunks env maxCalls maxTimeMs rest st1
        else
          let narrowed := narrowStep env maxCalls maxTimeMs chunkStart (minBlock logs) st1
          finishStep env maxCalls maxTimeMs narrowed.1 narrowed.2

/-- Result of one Base scan, with the run's internal observables kept next to
the returned dict. -/
structure BaseRun where
  result : FirstSeenResult
  callsUsed : Nat
  requestsIssued : Nat
  earliestBlock : Option Nat
  hitCap : Bool
  scanStartBlock : Nat
deriving Repr, DecidableEq

/-- The body of `estimate_first_seen_base` once the two initial calls
(`eth_blockNumber`, the `eth_getBlockByNumber` inside `_timestamp_to_block`)
have resolved to `currentBlock` and `currentTs`. -/
def estimateFirstSeenBaseCore (env : BaseEnv) (config : DepthConfig)
    (currentBlock currentTs : Nat) : BaseRun :=
      let targetTs : Int := (env.now : Int) - config.base_days * 86400
      let scanStart := timestampToBlock currentTs targetTs currentBlock
      let st0 : BaseScanState :=
        { callsUsed := 2
          requests := env.blockNumber.requests + (env.blockTimestamp currentBlock).requests
          elapsedMs := env.durationMs 0 + env.durationMs 1
          earliestBlock := none, earliestTimestamp := none, hitCap := false }
      let chunks := buildChunks (currentBlock - scanStart) scanStart currentBlock
      let st := scanChunks env config.max_rpc_calls config.max_time_ms chunks st0
      let scanDays := config.base_days
      let conf :=
        if st.earliestTimestamp.isNone && st.earliestBlock.isNone then "low"
        else if st.earliestBlock.isSome &&
                decide ((st.earliestBlock.getD 0 : Int) - (scanStart : Int) < 1000) then "low"
        else if st.hitCap then "low"
        else "medium"
      let note :=
        if st.earliestTimestamp.isNone && st.earliestBlock.isNone then
          (s!"No Transfer events found within {scanDays}-day scan window" ++
            if st.hitCap then " (scan budget exhausted)" else "")
        else if st.earliestBlock.isSome &&
                decide ((st.earliestBlock.getD 0 : Int) - (scanStart : Int) < 1000) then
          "First event found near scan window boundary — actual first receipt may be earlier"
        else if st.hitCap then "Scan budget exhausted — result may not reflect earliest receipt"
        else s!"Based on first Transfer event within {scanDays}-day window"
      { result :=
          { timestamp := st.earliestTimestamp.map (fun t => isoformatUTC t ++ "Z")
            confidence := conf
            method := "chunked_log_scan"
            scanWindow := s!"{scanDays} days"
            note := note }
        callsUsed := st.callsUsed
        requestsIssued := st.requests
        earliestBlock := st.earliestBlock
        hitCap := st.hitCap
        scanStartBlock := scanStart }

/-- `estimate_first_seen_base(address, token, depth)` after
`config = DEPTH_CONFIG[depth]`.  Failures of the two initial calls are not
caught and propagate to the caller. -/
def estimateFirstSeenBase (env : BaseEnv) (config : DepthConfig) : Except Unit BaseRun :=
  match env.blockNumber.result with
  | .error e => .error e
  | .ok currentBlock =>
    match (env.blockTimestamp currentBlock).result with
    | .error e => .error e
    | .ok currentTs => .ok (estimateFirstSeenBaseCore env config currentBlock currentTs)

/-! ## Solana first-seen estimator (`app/services/first_seen.py`) -/

/-- One entry of a `getSignaturesForAddress` response; only its optional
`blockTime` is consumed by the estimator. -/
structure SigInfo where
  blockTime : Option Nat
deriving Repr, DecidableEq

/-- RPC environment of one Solana first-seen scan.  `tokenAccounts` is the list
of token-account pubkeys in `token_accounts["value"]`; `signaturesFor pk lim`
is the (newest-first) signature page for account `pk` when requested with
`limit=lim`.  `callDurationMs i` is the clock advance of the signature fetch
for account number `i`. -/
structure SolEnv where
  tokenAccounts : Except Unit (List String)
  signaturesFor : String → Nat → Except Unit (List SigInfo)
  initialDurationMs : Nat
  callDurationMs : Nat → Nat

structure SolScanState where
  earliestTime : Option Nat
  totalSigs : Nat
  hitCap : Bool
  accountsScanned : Nat
  elapsedMs : Nat
  /-- Ghost observable: every batch returned by a successful signature fetch,
  in scan order (the Python keeps no such list; it is recorded here so that
  theorems can speak about "all signatures fetched"). -/
  batches : List (List SigInfo)
deriving Repr, DecidableEq

/-- `if earliest_time is None or batch_block_time < earliest_time` — fold one
batch's oldest block time (if any) into the running global minimum. -/
def updateEarliest (batchBlockTime : Option Nat) (st1 : SolScanState) : SolScanState :=
  match batchBlockTime with
  | some t =>
    if st1.earliestTime.isNone || decide (t < st1.earliestTime.getD 0) then
      { st1 with earliestTime := some t }
    else st1
  | none => st1

/-- The `if signatures:` body of one account iteration: read the last (oldest)
entry's block time, merge it into the running minimum, and taint `hit_cap` when
the page came back full. -/
def solAccountStep (signatures : List SigInfo) (batchLimit : Nat)
    (st1 : SolScanState) : SolScanState :=
  if signatures.isEmpty then st1
  else
    if signatures.length ≥ batchLimit then
      { updateEarliest (signatures.getLast?.bind (·.blockTime)) st1 with hitCap := true }
    else updateEarliest (signatures.getLast?.bind (·.blockTime)) st1

/-- The `for acc in token_accounts["value"]` loop: time budget check, signature
budget check, one `getSignaturesForAddress` per account (failure is logged and
skipped), oldest-block-time tracking via the last entry of the batch, and the
page-limit taint. -/
def scanSolAccounts (env : SolEnv) (maxSigs maxTimeMs : Nat) :
    List String → Nat → SolScanState → SolScanState
  | [], _, st => st
  | pubkey :: rest, idx, st =>
    if st.elapsedMs > maxTimeMs then { st with hitCap := true }
    else if maxSigs - st.totalSigs = 0 then { st with hitCap := true }
    else
      match env.signaturesFor pubkey (min (maxSigs - st.totalSigs) 1000) with
      | .error _ =>
        scanSolAccounts env maxSigs maxTimeMs rest (idx + 1)
          { st with elapsedMs := st.elapsedMs + env.callDurationMs idx }
      | .ok signatures =>
        scanSolAccounts env maxSigs maxTimeMs rest (idx + 1)
          (solAccountStep signatures (min (maxSigs - st.totalSigs) 1000)
            { st with accountsScanned := st.accountsScanned + 1
                      totalSigs := st.totalSigs + signatures.length
                      elapsedMs := st.elapsedMs + env.callDurationMs idx
                      batches := st.batches ++ [signatures] })

/-- Result of one Solana scan with its internal observables. -/
structure SolRun where
  result : FirstSeenResult
  earliestTime : Option Nat
  totalSigs : Nat
  hitCap : Bool
  accountsScanned : Nat
  totalAccounts : Nat
  batches : List (List SigInfo)
deriving Repr, DecidableEq

/-- The body of `estimate_first_seen_solana` once the initial
`getTokenAccountsByOwner` call has resolved to `accounts`. -/
def estimateFirstSeenSolanaCore (env : SolEnv) (config : DepthConfig)
    (accounts : List String) : SolRun :=
    if accounts.isEmpty then
      { result := { timestamp := none, confidence := "low", method := "token_account_scan"
                    scanWindow := "0 accounts", note := "No token account found for this mint" }
        earliestTime := none, totalSigs := 0, hitCap := false, accountsScanned := 0
        totalAccounts := 0, batches := [] }
    else
      let st := scanSolAccounts env config.sol_sigs config.max_time_ms accounts 0
        { earliestTime := none, totalSigs := 0, hitCap := false, accountsScanned := 0
          elapsedMs := env.initialDurationMs, batches := [] }
      let totalAccounts := accounts.length
      let nSigs := st.totalSigs
      let nAcc := st.accountsScanned
      let fullScan := st.accountsScanned = totalAccounts && decide (st.totalSigs < config.sol_sigs)
      let conf :=
        if st.earliestTime.isNone then "low"
        else if st.hitCap then "low"
        else if fullScan then "high"
        else "medium"
      let note :=
        if st.earliestTime.isNone then "No transaction history found for token accounts"
        else if st.hitCap then
          s!"Scan limit reached ({nSigs} signatures across {nAcc} accounts). Actual first receipt could be earlier."
        else if fullScan then s!"Full history scanned across {nAcc} token account(s)"
        else s!"Scanned {nSigs} signatures across {nAcc} account(s)"
      { result := { timestamp := st.earliestTime.map (fun t => isoformatUTC t ++ "Z")
                    confidence := conf, method := "token_account_scan"
                    scanWindow := s!"{nSigs} signatures / {nAcc} accounts", note := note }
        earliestTime := st.earliestTime, totalSigs := st.totalSigs, hitCap := st.hitCap
        accountsScanned := st.accountsScanned, totalAccounts := totalAccounts
        batches := st.batches }

/-- `estimate_first_seen_solana(address, mint, depth)` after
`config = DEPTH_CONFIG[depth]`.  A failure of the initial
`getTokenAccountsByOwner` call propagates. -/
def estimateFirstSeenSolana (env : SolEnv) (config : DepthConfig) : Except Unit SolRun :=
  match env.tokenAccounts with
  | .error e => .error e
  | .ok accounts => .ok (estimateFirstSeenSolanaCore env config accounts)

/-- `estimate_first_seen(chain, address, token, depth)`: string dispatch; any
other chain returns the degraded "unsupported" dict without touching the RPC
layer (so it cannot fail). -/
def estimateFirstSeen (chain : String) (benv : BaseEnv) (senv : SolEnv)
    (config : DepthConfig) : Except Unit FirstSeenResult :=
  if chain = "base" then (estimateFirstSeenBase benv config).map (·.result)
  else if chain = "solana" then (estimateFirstSeenSolana senv config).map (·.result)
  else
    .ok { timestamp := none, confidence := "low", method := "none", scanWindow := "0"
          note := "Unsupported chain: " ++ chain }

/-! ## Recent-transfer scanner, Base path (`app/services/transfers.py`) -/

/-- One transfer record.  Base records carry `some "block:<n>"` as their
timestamp; Solana records carry an optional ISO string.  `amountRaw` is the raw
integer amount (the float-formatted `amount` string is not modelled).
`counterparty` is the `from` field of an inbound record and the `to` field of
an outbound one. -/
structure TransferRecord where
  timestamp : Option String
  amountRaw : Nat
  txHash : String
  counterparty : Option String
deriving Repr, DecidableEq

/-- The dict shape returned by the transfer scanners. -/
structure TransferSet where
  inbound : List TransferRecord
  outbound : List TransferRecord
  truncated : Bool
deriving Repr, DecidableEq

def EMPTY_TRANSFERS : TransferSet := { inbound := [], outbound := [], truncated := false }

/-- `_parse_transfer_logs(logs, decimals, direction)`.  Logs are modelled
already hex-decoded, so the per-record `try/except` (which skips records whose
hex fields fail to parse) has nothing to catch.  `decimals` only feeds the
unmodelled float amount string. -/
def parseTransferLogs (logs : List EthLog) (direction : String) : List TransferRecord :=
  logs.map fun lg =>
    { timestamp := some ("block:" ++ toString lg.blockNumber)
      amountRaw := lg.data
      txHash := lg.transactionHash
      counterparty :=
        if direction = "in" then (lg.topics[1]?).map unpad_address
        else (lg.topics[2]?).map unpad_address }

/-- Why the Base transfer loop stopped (trace observable, not in the Python). -/
inductive ExitReason where
  | budget
  | targets
  | chainEnd
deriving Repr, DecidableEq

/-- RPC environment of one Base transfer scan: inbound and outbound
`eth_getLogs` responses keyed by `(fromBlock, toBlock)`. -/
structure TransferEnv where
  blockNumber : RpcResp Nat
  getLogsIn : Nat → Nat → RpcResp (List EthLog)
  getLogsOut : Nat → Nat → RpcResp (List EthLog)
  durationMs : Nat → Nat

structure BaseTransferState where
  callsUsed : Nat
  requests : Nat
  elapsedMs : Nat
  inbound : List TransferRecord
  outbound : List TransferRecord
  truncated : Bool
  exitReason : ExitReason
  /-- Ghost observable: every log returned by a successful fetch. -/
  rawLogs : List EthLog
deriving Repr, DecidableEq

def BaseTransferState.charge (st : BaseTransferState) (env : TransferEnv) (reqs : Nat) :
    BaseTransferState :=
  { st with callsUsed := st.callsUsed + 1, requests := st.requests + reqs
            elapsedMs := st.elapsedMs + env.durationMs st.callsUsed }

/-- The inbound half of one chunk iteration: fetch only while the inbound
target is unmet; a failed fetch is logged, skipped, and still costs budget. -/
def inboundStep (env : TransferEnv) (b : BaseTransferBudget) (chunkStart cursor : Int)
    (st : BaseTransferState) : BaseTransferState :=
  if st.inbound.length < b.target_inbound then
    let resp := env.getLogsIn chunkStart.toNat cursor.toNat
    let stc := st.charge env resp.requests
    match resp.result with
    | .ok logs =>
      { stc with inbound := stc.inbound ++ parseTransferLogs logs "in"
                 rawLogs := stc.rawLogs ++ logs }
    | .error _ => stc
  else st

/-- The outbound fetch of one chunk iteration (issued only after its own budget
check passed). -/
def outboundFetch (env : TransferEnv) (chunkStart cursor : Int)
    (st : BaseTransferState) : BaseTransferState :=
  let resp := env.getLogsOut chunkStart.toNat cursor.toNat
  let stc := st.charge env resp.requests
  match resp.result with
  | .ok logs =>
    { stc with outbound := stc.outbound ++ parseTransferLogs logs "out"
               rawLogs := stc.rawLogs ++ logs }
  | .error _ => stc

/-- The `while cursor > 0` loop of `get_recent_transfers_base`: loop-top budget
check (sets `truncated`), early exit when both targets are met, inbound fetch,
a second budget check before the outbound fetch, outbound fetch, backward
cursor step. -/
def baseTransferLoop (env : TransferEnv) (b : BaseTransferBudget) :
    Nat → Int → BaseTransferState → BaseTransferState
  | 0, _, st => st
  | fuel + 1, cursor, st =>
    if cursor > 0 then
      if budgetExceeded st.callsUsed b.max_rpc_calls st.elapsedMs b.max_time_ms then
        { st with truncated := true, exitReason := .budget }
      else if st.inbound.length ≥ b.target_inbound && st.outbound.length ≥ b.target_outbound then
        { st with exitReason := .targets }
      else
        let chunkStart : Int := max 0 (cursor - b.chunk_size)
        let st1 := inboundStep env b chunkStart cursor st
        if st1.outbound.length < b.target_outbound then
          if budgetExceeded st1.callsUsed b.max_rpc_calls st1.elapsedMs b.max_time_ms then
            { st1 with truncated := true, exitReason := .budget }
          else
            baseTransferLoop env b fuel (chunkStart - 1) (outboundFetch env chunkStart cursor st1)
        else baseTransferLoop env b fuel (chunkStart - 1) st1
    else { st with exitReason := .chainEnd }

/-- Result of one Base transfer scan with its internal observables. -/
structure TransferRun where
  inbound : List TransferRecord
  outbound : List TransferRecord
  truncated : Bool
  callsUsed : Nat
  requestsIssued : Nat
  exitReason : ExitReason
  rawLogs : List EthLog
deriving Repr, DecidableEq

/-- The body of `get_recent_transfers_base` once `eth_blockNumber` has
resolved to `currentBlock`.  The final lists are stable-sorted descending in
the `timestamp` string (Base records always carry one) and cut to `limit`. -/
def getRecentTransfersBaseCore (env : TransferEnv) (limit currentBlock : Nat) : TransferRun :=
    let st0 : BaseTransferState :=
      { callsUsed := 1, requests := env.blockNumber.requests, elapsedMs := env.durationMs 0
        inbound := [], outbound := [], truncated := false, exitReason := .chainEnd
        rawLogs := [] }
    let st := baseTransferLoop env baseTransferBudget (currentBlock + 1) (currentBlock : Int) st0
    { inbound := (sortDescBy (fun r => r.timestamp.getD "") st.inbound).take limit
      outbound := (sortDescBy (fun r => r.timestamp.getD "") st.outbound).take limit
      truncated := st.truncated, callsUsed := st.callsUsed
      requestsIssued := st.requests, exitReason := st.exitReason, rawLogs := st.rawLogs }

/-- `get_recent_transfers_base(address, token, decimals, limit=5)` (the caller
passes `limit`; its Python default is 5).  `decimals` only feeds the
unmodelled float amount string. -/
def getRecentTransfersBase (env : TransferEnv) (_decimals limit : Nat) :
    Except Unit TransferRun :=
  match env.blockNumber.result with
  | .error e => .error e
  | .ok currentBlock => .ok (getRecentTransfersBaseCore env limit currentBlock)

/-! ## Recent-transfer scanner, Solana path (`app/services/transfers.py`) -/

structure TokenBalance where
  mint : String
  amount : Nat
deriving Repr, DecidableEq

structure SolInstr where
  parsedType : Option String
  source : Option String
  destination : Option String
  authority : Option String
deriving Repr, DecidableEq

/-- A fetched transaction that passed the `not tx or not tx.get("meta")`
filter: optional block time, pre/post token balances, its signature list and
parsed instructions. -/
structure SolTx where
  blockTime : Option Nat
  preTokenBalances : List TokenBalance
  postTokenBalances : List TokenBalance
  txSignatures : List String
  instructions : List SolInstr
deriving Repr, DecidableEq

/-- `_find_token_balance`: first balance entry for `mint` (the
`token_account` parameter of the Python function is unused by its body). -/
def findTokenBalance (balances : List TokenBalance) (mint : String) : Nat :=
  match balances.find? (fun bal => bal.mint = mint) with
  | some bal => bal.amount
  | none => 0

/-- `_extract_counterparty(tx, role)`: first `transfer`/`transferChecked`
parsed instruction; `info.get("source"/"destination") or info.get("authority")`
(the Python `or` would also skip an empty string; only absence is modelled). -/
def extractCounterparty (tx : SolTx) (role : String) : Option String :=
  match tx.instructions.find?
      (fun ix => ix.parsedType = some "transfer" || ix.parsedType = some "transferChecked") with
  | some ix =>
    ((if role = "sender" then ix.source else ix.destination).orElse (fun _ => ix.authority))
  | none => none

/-- RPC environment of one Solana transfer scan.  `transactionFor sig` is
`.error` when the fetch raised (captured by `gather(..., return_exceptions)`),
`.ok none` when the response was null or had no `meta`. -/
structure SolTransferEnv where
  tokenAccounts : Except Unit (List String)
  signaturesFor : String → Nat → Except Unit (List String)
  transactionFor : String → Except Unit (Option SolTx)
  initialDurationMs : Nat
  batchDurationMs : Nat → Nat

structure SolTransferState where
  txParsed : Nat
  elapsedMs : Nat
  inbound : List TransferRecord
  outbound : List TransferRecord
  truncated : Bool
deriving Repr, DecidableEq

/-- The inner `for tx in results` loop of one gathered batch: skip failures,
null transactions and zero balance deltas; positive delta appends inbound,
negative appends outbound.  `datetime.fromtimestamp(block_time) if block_time`
treats a zero block time as absent (Python truthiness). -/
def processTxResults (mint : String) :
    List (Except Unit (Option SolTx)) → SolTransferState → SolTransferState
  | [], st => st
  | r :: rest, st =>
    match r with
    | .error _ => processTxResults mint rest st
    | .ok none => processTxResults mint rest st
    | .ok (some tx) =>
      let pre := findTokenBalance tx.preTokenBalances mint
      let post := findTokenBalance tx.postTokenBalances mint
      let diff : Int := (post : Int) - (pre : Int)
      if diff = 0 then processTxResults mint rest st
      else
        let ts :=
          match tx.blockTime with
          | some t => if t = 0 then none else some (isoformatUTC t ++ "Z")
          | none => none
        let entry : TransferRecord :=
          { timestamp := ts, amountRaw := diff.natAbs
            txHash := tx.txSignatures.headD ""
            counterparty :=
              if diff > 0 then extractCounterparty tx "sender"
              else extractCounterparty tx "recipient" }
        let st1 :=
          if diff > 0 then { st with inbound := st.inbound ++ [entry] }
          else { st with outbound := st.outbound ++ [entry] }
        processTxResults mint rest st1

/-- The `for batch_start in range(0, len(signatures), 5)` loop: time / parse
cap check (sets `truncated`), early exit on met targets, one gathered batch of
transaction fetches, then the batch is parsed sequentially. -/
def solTransferLoop (env : SolTransferEnv) (b : SolTransferBudget) (mint : String) :
    Nat → Nat → List String → SolTransferState → SolTransferState
  | _, _, [], st => st
  | 0, _, _, st => st
  | fuel + 1, idx, sigs, st =>
    if st.elapsedMs > b.max_time_ms || st.txParsed ≥ b.max_tx_parsed then
      { st with truncated := true }
    else if st.inbound.length ≥ b.target_inbound && st.outbound.length ≥ b.target_outbound then st
    else
      let batch := sigs.take b.parallel_batch_size
      let results := batch.map env.transactionFor
      let st1 := { st with txParsed := st.txParsed + batch.length
                           elapsedMs := st.elapsedMs + env.batchDurationMs idx }
      let st2 := processTxResults mint results st1
      solTransferLoop env b mint fuel (idx + 1) (sigs.drop b.parallel_batch_size) st2

/-- `get_recent_transfers_solana(address, mint, decimals, limit=5)`.  Failures
of the two initial calls (`getTokenAccountsByOwner`,
`getSignaturesForAddress`) are not caught and propagate. -/
def getRecentTransfersSolana (env : SolTransferEnv) (mint : String) (_decimals limit : Nat) :
    Except Unit TransferSet :=
  match env.tokenAccounts with
  | .error e => .error e
  | .ok accounts =>
    match accounts with
    | [] => .ok EMPTY_TRANSFERS
    | tokenAccount :: _ =>
      match env.signaturesFor tokenAccount solTransferBudget.sig_fetch_limit with
      | .error e => .error e
      | .ok signatures =>
        let st0 : SolTransferState :=
          { txParsed := 0, elapsedMs := env.initialDurationMs
            inbound := [], outbound := [], truncated := false }
        let st := solTransferLoop env solTransferBudget mint (signatures.length + 1) 0 signatures st0
        .ok { inbound := st.inbound.take limit, outbound := st.outbound.take limit
              truncated := st.truncated }

/-- `get_recent_transfers(chain, address, token, decimals, limit=5)`: string
dispatch; any other chain returns a copy of `EMPTY_TRANSFERS` without touching
the RPC layer. -/
def getRecentTransfers (chain : String) (benv : TransferEnv) (senv : SolTransferEnv)
    (mint : String) (decimals limit : Nat) : Except Unit TransferSet :=
  if chain = "base" then
    (getRecentTransfersBase benv decimals limit).map fun r =>
      { inbound := r.inbound, outbound := r.outbound, truncated := r.truncated }
  else if chain = "solana" then getRecentTransfersSolana senv mint decimals limit
  else .ok EMPTY_TRANSFERS

/-! ## `eth_get_logs` sub-chunking fallback (`app/services/rpc.py`)

The chain node is modelled semantically for this call: the node holds a stream
`db` of logs and answers a block-ranged query with the logs whose block number
falls in the range, in stream order.  `eth_getLogs` returns logs ordered by
block number, which is the hypothesis `ascendingBlocks db` of the claim. -/

def FALLBACK_CHUNK_SIZE : Nat := 1000
def MIN_CHUNK : Nat := 200

/-- A direct `eth_getLogs` over `[fromBlock, toBlock]` against the node's log
stream. -/
def rangeQuery (db : List EthLog) (fromBlock toBlock : Nat) : List EthLog :=
  db.filter (fun lg => fromBlock ≤ lg.blockNumber && lg.blockNumber ≤ toBlock)

/-- The `while cursor <= to_block` re-fetch loop of `eth_get_logs`,
concatenating `_FALLBACK_CHUNK_SIZE`-block sub-range queries. -/
def chunkedFetch (db : List EthLog) : Nat → Nat → Nat → List EthLog
  | 0, _, _ => []
  | fuel + 1, cursor, toBlock =>
    if cursor ≤ toBlock then
      rangeQuery db cursor (min (cursor + FALLBACK_CHUNK_SIZE) toBlock) ++
        chunkedFetch db fuel (min (cursor + FALLBACK_CHUNK_SIZE) toBlock + 1) toBlock
    else []

/-- The sub-range list generated by the same loop (for the coverage part of
the claim). -/
def subRanges : Nat → Nat → Nat → List (Nat × Nat)
  | 0, _, _ => []
  | fuel + 1, cursor, toBlock =>
    if cursor ≤ toBlock then
      (cursor, min (cursor + FALLBACK_CHUNK_SIZE) toBlock) ::
        subRanges fuel (min (cursor + FALLBACK_CHUNK_SIZE) toBlock + 1) toBlock
    else []

/-- `ranges` tile `[lo, hi]` exactly: consecutive, no gap, no overlap. -/
def consecutiveCover : List (Nat × Nat) → Nat → Nat → Prop
  | [], lo, hi => hi < lo
  | (a, b) :: rest, lo, hi => a = lo ∧ a ≤ b ∧ b ≤ hi ∧ consecutiveCover rest (b + 1) hi

/-- How the direct `eth_getLogs` attempt ended. -/
inductive DirectOutcome where
  | success
  /-- error text matching `_is_range_error`. -/
  | rangeError
  | otherError

/-- `eth_get_logs(params)`: direct call, with the sub-chunking fallback on a
"range too large" error.  When the span is already at most `_MIN_CHUNK` the
Python re-raises (its bare `raise` actually raises a `RuntimeError`, but
either way the call fails). -/
def eth_get_logs (db : List EthLog) (outcome : DirectOutcome) (fromBlock toBlock : Nat) :
    Except Unit (List EthLog) :=
  match outcome with
  | .success => .ok (rangeQuery db fromBlock toBlock)
  | .otherError => .error ()
  | .rangeError =>
    if toBlock - fromBlock ≤ MIN_CHUNK then .error ()
    else .ok (chunkedFetch db (toBlock + 2 - fromBlock) fromBlock toBlock)

/-- `eth_getLogs` responses come ordered by block number (adjacent check; the
theorems lift it to pairwise order). -/
def ascendingBlocks : List EthLog → Bool
  | [] => true
  | [_] => true
  | a :: b :: rest => decide (a.blockNumber ≤ b.blockNumber) && ascendingBlocks (b :: rest)

/-- `signatures` pages come newest-first: every entry carries a block time and
block times never increase along the page. -/
def blockTimesDescending : List SigInfo → Bool
  | [] => true
  | [s] => s.blockTime.isSome
  | a :: b :: rest =>
    a.blockTime.isSome && b.blockTime.isSome &&
      decide (b.blockTime.getD 0 ≤ a.blockTime.getD 0) && blockTimesDescending (b :: rest)

/-- The minimum of a list of naturals (`none` on `[]`), independent of order. -/
def listMinNat : List Nat → Option Nat
  | [] => none
  | t :: rest =>
    match listMinNat rest with
    | none => some t
    | some m => some (min t m)

/-- All block times fetched during a Solana first-seen run. -/
def SolRun.fetchedBlockTimes (r : SolRun) : List Nat :=
  (r.batches.map (fun b => b.filterMap (·.blockTime))).flatten

/-! ## Concrete environments and runs used by counterexamples and witnesses -/

/-- A transport call that needs three retries before succeeding (e.g. two
connect timeouts and a 503, then a 200): four HTTP requests for one unit of
scanner budget. -/
def retriedOk (a : α) : RpcResp α :=
  RpcResp.ofOutcomes (fun n => if n < 3 then Attempt.connectFailure else Attempt.ok a)

/-- Base first-seen environment in which every upstream answer needs three
retries; the chain has no matching transfer logs. -/
def retryHeavyBaseEnv : BaseEnv :=
  { blockNumber := retriedOk 100000
    blockTimestamp := fun _ => retriedOk 1000000000
    getLogs := fun _ _ => retriedOk []
    now := 1000000000
    durationMs := fun _ => 0 }

def mkLog (n : Nat) (h : String) : EthLog :=
  { blockNumber := n, data := 1000, topics := [], transactionHash := h }

/-- Transfer environment: current block 10, first inbound query returns logs at
blocks 10 and 9, no outbound logs. -/
def twoDigitBoundaryEnv : TransferEnv :=
  { blockNumber := RpcResp.pure 10
    getLogsIn := fun _ _ => { result := .ok [mkLog 10 "0xa", mkLog 9 "0xb"], requests := 1 }
    getLogsOut := fun _ _ => RpcResp.pure []
    durationMs := fun _ => 0 }

/-- Transfer environment: current block 200007 (exactly eight backward chunks),
the first outbound query returns five transfers, no inbound log anywhere.  The
scan runs out of chain (cursor reaches 0) on the same call that spends the
tenth budget unit. -/
def chainEndEnv : TransferEnv :=
  { blockNumber := RpcResp.pure 200007
    getLogsIn := fun _ _ => RpcResp.pure []
    getLogsOut := fun _ t =>
      if t = 200007 then
        { result := .ok [mkLog 1 "0x1", mkLog 2 "0x2", mkLog 3 "0x3", mkLog 4 "0x4", mkLog 5 "0x5"]
          requests := 1 }
      else RpcResp.pure []
    durationMs := fun _ => 0 }

/-- Transfer environment: a deep chain where every `eth_getLogs` call returns
an empty list (the end-to-end scenario of the spec). -/
def allEmptyEnv : TransferEnv :=
  { blockNumber := RpcResp.pure 20000000
    getLogsIn := fun _ _ => RpcResp.pure []
    getLogsOut := fun _ _ => RpcResp.pure []
    durationMs := fun _ => 0 }

/-- Solana first-seen environment: one token account whose single signature
carries no block time. -/
def nullBlockTimeEnv : SolEnv :=
  { tokenAccounts := .ok ["Acc1"]
    signaturesFor := fun _ _ => .ok [{ blockTime := none }]
    initialDurationMs := 0
    callDurationMs := fun _ => 0 }

/-- Solana first-seen environment: two token accounts, account A's only
signature is newer (block time 1000000), account B's is older (500000); both
fully scanned far under the cap. -/
def twoAccountEnv : SolEnv :=
  { tokenAccounts := .ok ["AccA", "AccB"]
    signaturesFor := fun pk _ =>
      if pk = "AccA" then .ok [{ blockTime := some 1000000 }]
      else .ok [{ blockTime := some 500000 }]
    initialDurationMs := 0
    callDurationMs := fun _ => 0 }

/-- Solana first-seen environment: one account, one signature at the epoch. -/
def epochSigEnv : SolEnv :=
  { tokenAccounts := .ok ["Acc1"]
    signaturesFor := fun _ _ => .ok [{ blockTime := some 0 }]
    initialDurationMs := 0
    callDurationMs := fun _ => 0 }

/-- Solana transfer environment with no token accounts (degraded path). -/
def emptySolTransferEnv : SolTransferEnv :=
  { tokenAccounts := .ok []
    signaturesFor := fun _ _ => .ok []
    transactionFor := fun _ => .ok none
    initialDurationMs := 0
    batchDurationMs := fun _ => 0 }

/-- The run `retryHeavyBaseEnv` produces under the `fast` depth. -/
def retryHeavyRun : BaseRun :=
  { result := { timestamp := none, confidence := "low", method := "chunked_log_scan"
                scanWindow := "30 days"
                note := "No Transfer events found within 30-day scan window" }
    callsUsed := 4, requestsIssued := 16, earliestBlock := none, hitCap := false
    scanStartBlock := 0 }

/-- The run `allEmptyEnv` produces: ten empty calls, budget break. -/
def allEmptyRun : TransferRun :=
  { inbound := [], outbound := [], truncated := true, callsUsed := 10
    requestsIssued := 10, exitReason := .budget, rawLogs := [] }

/-- The run `twoDigitBoundaryEnv` produces: the lexicographic sort lists the
block-9 record before the block-10 record. -/
def twoDigitRun : TransferRun :=
  { inbound := [{ timestamp := some "block:9", amountRaw := 1000, txHash := "0xb", counterparty := none },
                { timestamp := some "block:10", amountRaw := 1000, txHash := "0xa", counterparty := none }]
    outbound := [], truncated := false, callsUsed := 3, requestsIssued := 3
    exitReason := .chainEnd
    rawLogs := [mkLog 10 "0xa", mkLog 9 "0xb"] }

/-- The run `twoAccountEnv` produces under the `standard` depth. -/
def twoAccountRun : SolRun :=
  { result := { timestamp := some "1970-01-06T18:53:20+00:00Z", confidence := "high"
                method := "token_account_scan", scanWindow := "2 signatures / 2 accounts"
                note := "Full history scanned across 2 token account(s)" }
    earliestTime := some 500000, totalSigs := 2, hitCap := false, accountsScanned := 2
    totalAccounts := 2
    batches := [[{ blockTime := some 1000000 }], [{ blockTime := some 500000 }]] }

/-- The `FirstSeenResult` the `epochSigEnv` run produces: note the timestamp
string carrying both the `+00:00` offset and a trailing `Z`. -/
def epochFirstSeenResult : FirstSeenResult :=
  { timestamp := some "1970-01-01T00:00:00+00:00Z", confidence := "high"
    method := "token_account_scan", scanWindow := "1 signatures / 1 accounts"
    note := "Full history scanned across 1 token account(s)" }

/-- Every record of the state is decoded from one of the fetched logs: its
timestamp is the literal string `block:` followed by that log's decimal block
number (never a wall-clock time) and its hash is that log's hash. -/
def recordsTraceable (st : BaseTransferState) : Prop :=
  ∀ rec ∈ st.inbound ++ st.outbound, ∃ lg ∈ st.rawLogs,
    rec.timestamp = some ("block:" ++ toString lg.blockNumber) ∧
      rec.txHash = lg.transactionHash

/-! # Theorems -/

/-! ## General helper lemmas -/

theorem except_map_ok {α β : Type} {f : α → β} {x : Except Unit α} {b : β}
    (h : x.map f = .ok b) : ∃ a, x = .ok a ∧ f a = b := by
  cases x with
  | error e => simp [Except.map] at h
  | ok a => exact ⟨a, rfl, by simpa [Except.map] using h⟩

theorem estimateFirstSeenBase_ok {env : BaseEnv} {config : DepthConfig} {r : BaseRun}
    (hr : estimateFirstSeenBase env config = .ok r) :
    ∃ currentBlock currentTs, r = estimateFirstSeenBaseCore env config currentBlock currentTs := by
  unfold estimateFirstSeenBase at hr
  split at hr
  · exact absurd hr (by simp)
  · split at hr
    · exact absurd hr (by simp)
    · exact ⟨_, _, (Except.ok.injEq _ _ ▸ hr).symm⟩

theorem estimateFirstSeenSolana_ok {env : SolEnv} {config : DepthConfig} {r : SolRun}
    (hr : estimateFirstSeenSolana env config = .ok r) :
    ∃ accounts, r = estimateFirstSeenSolanaCore env config accounts := by
  unfold estimateFirstSeenSolana at hr
  split at hr
  · exact absurd hr (by simp)
  · exact ⟨_, (Except.ok.injEq _ _ ▸ hr).symm⟩

theorem getRecentTransfersBase_ok {env : TransferEnv} {d l : Nat} {r : TransferRun}
    (hr : getRecentTransfersBase env d l = .ok r) :
    ∃ currentBlock, r = getRecentTransfersBaseCore env l currentBlock := by
  unfold getRecentTransfersBase at hr
  split at hr
  · exact absurd hr (by simp)
  · exact ⟨_, (Except.ok.injEq _ _ ▸ hr).symm⟩

/-! ## Call-budget lemmas (claim C1) -/

theorem budgetExceeded_false {c m e t : Nat} (h : budgetExceeded c m e t = false) : c < m := by
  simp [budgetExceeded] at h
  omega

theorem BaseScanState.charge_callsUsed (st : BaseScanState) (env : BaseEnv) (reqs : Nat) :
    (st.charge env reqs).callsUsed = st.callsUsed + 1 := rfl

theorem narrowStep_calls_le (env : BaseEnv) (maxCalls maxTimeMs chunkStart eb : Nat)
    (st1 : BaseScanState) (h : st1.callsUsed ≤ maxCalls) :
    (narrowStep env maxCalls maxTimeMs chunkStart eb st1).2.callsUsed ≤ maxCalls := by
  simp only [narrowStep]
  split
  · rename_i hcond
    rcases Bool.and_eq_true_iff.mp hcond with ⟨hb, _⟩
    have hlt : st1.callsUsed + 1 < maxCalls := budgetExceeded_false (by simpa using hb)
    split <;> simp [BaseScanState.charge] <;> omega
  · exact h

theorem finishStep_calls_le (env : BaseEnv) (maxCalls maxTimeMs eb2 : Nat)
    (stN : BaseScanState) (h : stN.callsUsed ≤ maxCalls) :
    (finishStep env maxCalls maxTimeMs eb2 stN).callsUsed ≤ maxCalls := by
  simp only [finishStep]
  split
  · rename_i hfin
    have hlt : stN.callsUsed < maxCalls := budgetExceeded_false (by simpa using hfin)
    simp [BaseScanState.charge]
    omega
  · exact h

theorem scanChunks_calls_le (env : BaseEnv) (maxCalls maxTimeMs : Nat)
    (chunks : List (Nat × Nat)) :
    ∀ st : BaseScanState, st.callsUsed ≤ maxCalls →
      (scanChunks env maxCalls maxTimeMs chunks st).callsUsed ≤ maxCalls := by
  induction chunks with
  | nil => intro st h; exact h
  | cons c rest ih =>
    intro st h
    obtain ⟨chunkStart, chunkEnd⟩ := c
    simp only [scanChunks]
    split
    · exact h
    · rename_i hbe
      have hlt : st.callsUsed < maxCalls := budgetExceeded_false (by simpa using hbe)
      have h1 : (st.charge env (env.getLogs chunkStart chunkEnd).requests).callsUsed ≤ maxCalls := by
        rw [BaseScanState.charge_callsUsed]; omega
      split
      · exact ih _ h1
      · split
        · exact ih _ h1
        · exact finishStep_calls_le _ _ _ _ _ (narrowStep_calls_le _ _ _ _ _ _ h1)

theorem inboundStep_calls_le (env : TransferEnv) (b : BaseTransferBudget)
    (chunkStart cursor : Int) (st : BaseTransferState) :
    (inboundStep env b chunkStart cursor st).callsUsed ≤ st.callsUsed + 1 := by
  simp only [inboundStep]
  split
  · split <;> simp [BaseTransferState.charge]
  · omega

theorem outboundFetch_calls (env : TransferEnv) (chunkStart cursor : Int)
    (st : BaseTransferState) :
    (outboundFetch env chunkStart cursor st).callsUsed = st.callsUsed + 1 := by
  simp only [outboundFetch]
  split <;> simp [BaseTransferState.charge]

theorem baseTransferLoop_calls_le (env : TransferEnv) (b : BaseTransferBudget) :
    ∀ (fuel : Nat) (cursor : Int) (st : BaseTransferState), st.callsUsed ≤ b.max_rpc_calls →
      (baseTransferLoop env b fuel cursor st).callsUsed ≤ b.max_rpc_calls := by
  intro fuel
  induction fuel with
  | zero => intro cursor st h; exact h
  | succ fuel ih =>
    intro cursor st h
    simp only [baseTransferLoop]
    split
    · split
      · exact h
      · split
        · exact h
        · rename_i hbe _
          have hlt : st.callsUsed < b.max_rpc_calls := budgetExceeded_false (by simpa using hbe)
          have hc1 := inboundStep_calls_le env b (max 0 (cursor - b.chunk_size)) cursor st
          split
          · split
            · dsimp only
              omega
            · rename_i hbe2
              have hlt2 : (inboundStep env b (max 0 (cursor - b.chunk_size)) cursor st).callsUsed
                  < b.max_rpc_calls := budgetExceeded_false (by simpa using hbe2)
              apply ih
              rw [outboundFetch_calls]
              omega
          · exact ih _ _ (by omega)
    · exact h

theorem depth_config_min_calls {depth : String} {config : DepthConfig}
    (h : DEPTH_CONFIG depth = some config) : 2 ≤ config.max_rpc_calls := by
  unfold DEPTH_CONFIG at h
  split at h <;> simp_all <;> subst h <;> decide

/-- C1 (counterexample): with the `fast` budget (8 calls) and every upstream
answer needing three retries, the run issues 16 HTTP requests while consuming
only 4 units of call budget — retry attempts do not count against the budget,
so the total number of requests actually issued exceeds `max_rpc_calls`. -/
theorem retries_exceed_call_budget :
    (estimateFirstSeenBase retryHeavyBaseEnv fastConfig).map
        (fun r => (r.requestsIssued, r.callsUsed)) = .ok (16, 4) ∧
      fastConfig.max_rpc_calls = 8 := by
  exact ⟨by decide, by decide⟩

/-- C1 (amended): counting one unit per logical transport call (retries and
sub-range re-issues inside the transport are not separately counted), the Base
first-seen estimator never exceeds its depth budget and the Base transfer
scanner never exceeds its fixed 10-call budget. -/
theorem logical_call_budget_respected
    (depth : String) (config : DepthConfig) (benv : BaseEnv) (r : BaseRun)
    (tenv : TransferEnv) (decimals limit : Nat) (t : TransferRun)
    (hdepth : DEPTH_CONFIG depth = some config)
    (hr : estimateFirstSeenBase benv config = .ok r)
    (ht : getRecentTransfersBase tenv decimals limit = .ok t) :
    r.callsUsed ≤ config.max_rpc_calls ∧ t.callsUsed ≤ baseTransferBudget.max_rpc_calls := by
  constructor
  · obtain ⟨currentBlock, currentTs, rfl⟩ := estimateFirstSeenBase_ok hr
    exact scanChunks_calls_le _ _ _ _ _ (depth_config_min_calls hdepth)
  · obtain ⟨currentBlock, rfl⟩ := getRecentTransfersBase_ok ht
    exact baseTransferLoop_calls_le _ _ _ _ _ (by show (1 : Nat) ≤ 10; decide)

theorem logical_call_budget_respected_witness :
    (DEPTH_CONFIG "fast" = some fastConfig ∧
      estimateFirstSeenBase retryHeavyBaseEnv fastConfig = .ok retryHeavyRun ∧
      getRecentTransfersBase allEmptyEnv 18 5 = .ok allEmptyRun) ∧
    (retryHeavyRun.callsUsed ≤ fastConfig.max_rpc_calls ∧
      allEmptyRun.callsUsed ≤ baseTransferBudget.max_rpc_calls) :=
  ⟨⟨by decide, by decide, by decide⟩,
    logical_call_budget_respected "fast" fastConfig retryHeavyBaseEnv retryHeavyRun
      allEmptyEnv 18 5 allEmptyRun (by decide) (by decide) (by decide)⟩

/-- C4 (code bug): with the current block at height 10 and inbound transfer
logs at blocks 9 and 10, the returned inbound list is ordered
`[block 9, block 10]` — oldest first — because the sort key is the *string*
`"block:<n>"` compared lexicographically, not the block number.  Newest-first
ordering would require the block-10 record first. -/
theorem lexicographic_sort_not_newest_first :
    (getRecentTransfersBase twoDigitBoundaryEnv 18 5).map
        (fun r => r.inbound.map (fun rec => rec.timestamp)) =
      .ok [some "block:9", some "block:10"] := by
  decide

/-- C9: any chain identifier other than `base` and `solana` makes both
dispatchers return their degraded result (null timestamp / empty lists, with
the explicit unsupported note on the first-seen path); the unsupported branch
is a pure dict construction, so no exception can reach the caller. -/
theorem unsupported_chain_degrades
    (chain : String) (benv : BaseEnv) (senv : SolEnv) (config : DepthConfig)
    (tenv : TransferEnv) (stenv : SolTransferEnv) (mint : String) (decimals limit : Nat)
    (h1 : chain ≠ "base") (h2 : chain ≠ "solana") :
    estimateFirstSeen chain benv senv config =
      .ok { timestamp := none, confidence := "low", method := "none", scanWindow := "0"
            note := "Unsupported chain: " ++ chain } ∧
    getRecentTransfers chain tenv stenv mint decimals limit = .ok EMPTY_TRANSFERS := by
  constructor
  · simp [estimateFirstSeen, h1, h2]
  · simp [getRecentTransfers, h1, h2]

theorem unsupported_chain_degrades_witness :
    (("ethereum" : String) ≠ "base" ∧ ("ethereum" : String) ≠ "solana") ∧
    (estimateFirstSeen "ethereum" retryHeavyBaseEnv nullBlockTimeEnv fastConfig =
        .ok { timestamp := none, confidence := "low", method := "none", scanWindow := "0"
              note := "Unsupported chain: " ++ "ethereum" } ∧
      getRecentTransfers "ethereum" allEmptyEnv emptySolTransferEnv "MINT" 18 5 =
        .ok EMPTY_TRANSFERS) :=
  ⟨⟨by decide, by decide⟩,
    unsupported_chain_degrades "ethereum" retryHeavyBaseEnv nullBlockTimeEnv fastConfig
      allEmptyEnv emptySolTransferEnv "MINT" 18 5 (by decide) (by decide)⟩

/-! ## Truncation lemmas (claim C5) -/

theorem inboundStep_preserves (env : TransferEnv) (b : BaseTransferBudget)
    (chunkStart cursor : Int) (st : BaseTransferState) :
    (inboundStep env b chunkStart cursor st).truncated = st.truncated ∧
      (inboundStep env b chunkStart cursor st).exitReason = st.exitReason := by
  simp only [inboundStep]
  split
  · split <;> simp [BaseTransferState.charge]
  · exact ⟨rfl, rfl⟩

theorem outboundFetch_preserves (env : TransferEnv) (chunkStart cursor : Int)
    (st : BaseTransferState) :
    (outboundFetch env chunkStart cursor st).truncated = st.truncated ∧
      (outboundFetch env chunkStart cursor st).exitReason = st.exitReason := by
  simp only [outboundFetch]
  split <;> simp [BaseTransferState.charge]

theorem baseTransferLoop_trunc_iff (env : TransferEnv) (b : BaseTransferBudget) :
    ∀ (fuel : Nat) (cursor : Int) (st : BaseTransferState),
      st.truncated = false → st.exitReason = .chainEnd →
      ((baseTransferLoop env b fuel cursor st).truncated = true ↔
        (baseTransferLoop env b fuel cursor st).exitReason = .budget) := by
  intro fuel
  induction fuel with
  | zero => intro cursor st h1 h2; simp [baseTransferLoop, h1, h2]
  | succ fuel ih =>
    intro cursor st h1 h2
    simp only [baseTransferLoop]
    split
    · split
      · simp
      · split
        · simp [h1, h2]
        · have hin := inboundStep_preserves env b (max 0 (cursor - b.chunk_size)) cursor st
          split
          · split
            · simp
            · have hout := outboundFetch_preserves env (max 0 (cursor - b.chunk_size)) cursor
                (inboundStep env b (max 0 (cursor - b.chunk_size)) cursor st)
              exact ih _ _ (by rw [hout.1, hin.1]; exact h1) (by rw [hout.2, hin.2]; exact h2)
          · exact ih _ _ (by rw [hin.1]; exact h1) (by rw [hin.2]; exact h2)
    · simp [h1, h2]

/-- C5 (counterexample): current block 200007, five outbound transfers in the
first chunk, no inbound transfer anywhere.  The scanner walks the whole chain
(cursor reaches 0) spending its entire 10-call budget with the inbound target
never met, yet returns `truncated = false` — contradicting "truncated iff the
budget was exhausted before both targets were met". -/
theorem chain_end_budget_spent_not_truncated :
    (getRecentTransfersBase chainEndEnv 18 5).map
        (fun r => (r.truncated, r.inbound.length, r.outbound.length, r.callsUsed,
          r.exitReason)) = .ok (false, 0, 5, 10, .chainEnd) ∧
      baseTransferBudget.max_rpc_calls = 10 ∧ baseTransferBudget.target_inbound = 5 := by
  refine ⟨by decide, by decide, by decide⟩

/-- C5 (amended): `truncated` is true exactly when the scan loop exited through
one of its two budget checkpoints (loop top, or just before an outbound fetch),
rather than through the targets-met exit or by running out of chain (cursor at
block 0).  In particular a scan whose calls all return empty lists exhausts the
10-call budget at a checkpoint and reports `truncated = true` with empty lists
(the witness instantiates exactly that scenario). -/
theorem truncated_iff_budget_exit (env : TransferEnv) (decimals limit : Nat)
    (r : TransferRun) (hr : getRecentTransfersBase env decimals limit = .ok r) :
    r.truncated = true ↔ r.exitReason = .budget := by
  obtain ⟨currentBlock, rfl⟩ := getRecentTransfersBase_ok hr
  simp only [getRecentTransfersBaseCore]
  exact baseTransferLoop_trunc_iff env baseTransferBudget _ _ _ rfl rfl

theorem truncated_iff_budget_exit_witness :
    (getRecentTransfersBase allEmptyEnv 18 5 = .ok allEmptyRun ∧
      allEmptyRun.inbound = [] ∧ allEmptyRun.outbound = []) ∧
    (allEmptyRun.truncated = true ↔ allEmptyRun.exitReason = .budget) :=
  ⟨⟨by decide, by decide, by decide⟩,
    truncated_iff_budget_exit allEmptyEnv 18 5 allEmptyRun (by decide)⟩

/-! ## Base confidence lemmas (claim C2) -/

theorem finishStep_earliestBlock (env : BaseEnv) (maxCalls maxTimeMs eb2 : Nat)
    (stN : BaseScanState) :
    (finishStep env maxCalls maxTimeMs eb2 stN).earliestBlock = some eb2 := by
  simp only [finishStep]
  split <;> rfl

theorem scanChunks_none_ts (env : BaseEnv) (maxCalls maxTimeMs : Nat)
    (chunks : List (Nat × Nat)) :
    ∀ st : BaseScanState, (st.earliestBlock = none → st.earliestTimestamp = none) →
      ((scanChunks env maxCalls maxTimeMs chunks st).earliestBlock = none →
        (scanChunks env maxCalls maxTimeMs chunks st).earliestTimestamp = none) := by
  induction chunks with
  | nil => intro st h; exact h
  | cons c rest ih =>
    intro st h
    obtain ⟨chunkStart, chunkEnd⟩ := c
    simp only [scanChunks]
    split
    · exact h
    · split
      · exact ih _ h
      · split
        · exact ih _ h
        · intro habs
          rw [finishStep_earliestBlock] at habs
          exact absurd habs (by simp)

/-- C2: the Base estimator's confidence follows the priority order of the
source: no events found → low with a null timestamp; candidate within 1000
blocks of the computed scan start → low; budget exhausted → low; otherwise
medium.  `high` is never returned on this chain. -/
theorem base_confidence_priority (benv : BaseEnv) (config : DepthConfig) (r : BaseRun)
    (hr : estimateFirstSeenBase benv config = .ok r) :
    (r.earliestBlock = none → r.result.confidence = "low" ∧ r.result.timestamp = none) ∧
    (∀ b : Nat, r.earliestBlock = some b →
      ((b : Int) - (r.scanStartBlock : Int) < 1000) → r.result.confidence = "low") ∧
    (∀ b : Nat, r.earliestBlock = some b →
      ¬((b : Int) - (r.scanStartBlock : Int) < 1000) → r.hitCap = true →
      r.result.confidence = "low") ∧
    (∀ b : Nat, r.earliestBlock = some b →
      ¬((b : Int) - (r.scanStartBlock : Int) < 1000) → r.hitCap = false →
      r.result.confidence = "medium") ∧
    r.result.confidence ≠ "high" := by
  obtain ⟨currentBlock, currentTs, rfl⟩ := estimateFirstSeenBase_ok hr
  simp only [estimateFirstSeenBaseCore]
  refine ⟨?_, ?_, ?_, ?_, ?_⟩
  · intro hB
    have hT := scanChunks_none_ts benv config.max_rpc_calls config.max_time_ms _ _
      (fun _ => rfl) hB
    simp [hB, hT]
  · intro b hb hnear
    simp [hb, hnear]
  · intro b hb hnear hcap
    simp [hb, hnear, hcap]
  · intro b hb hnear hcap
    simp [hb, hnear, hcap]
  · split
    · simp
    · split
      · simp
      · split <;> simp

theorem base_confidence_priority_witness :
    (estimateFirstSeenBase retryHeavyBaseEnv fastConfig = .ok retryHeavyRun ∧
      retryHeavyRun.earliestBlock = none) ∧
    (retryHeavyRun.result.confidence = "low" ∧ retryHeavyRun.result.timestamp = none) :=
  ⟨⟨by decide, by decide⟩,
    (base_confidence_priority retryHeavyBaseEnv fastConfig retryHeavyRun (by decide)).1
      (by decide)⟩

/-! ## Solana confidence (claim C3) -/

/-- C3 (counterexample): one token account whose single signature carries a
null `blockTime`.  Signatures were found (1 of them), the account was fully
scanned (1 of 1, no page limit, no budget hit, 1 < 200), so the claim requires
`high`; the code keys its first branch on the tracked block time, which stayed
`None`, and returns `low`. -/
theorem null_blocktime_full_scan_low :
    (estimateFirstSeenSolana nullBlockTimeEnv fastConfig).map
        (fun r => (r.result.confidence, r.totalSigs, r.hitCap, r.accountsScanned,
          r.totalAccounts)) = .ok ("low", 1, false, 1, 1) ∧
      fastConfig.sol_sigs = 200 := by
  exact ⟨by decide, by decide⟩

/-- C3 (amended): the Solana confidence priority keyed on the *observed oldest
block time* rather than on raw signature counts: no block time observed → low
(in particular when no signatures exist at all); budget or page limit hit →
low; block time observed, no cap hit, every account's fetch succeeded and the
total is strictly under the depth cap → high; otherwise medium. -/
theorem solana_confidence_priority (senv : SolEnv) (config : DepthConfig) (r : SolRun)
    (hr : estimateFirstSeenSolana senv config = .ok r) :
    (r.earliestTime = none → r.result.confidence = "low") ∧
    (∀ t : Nat, r.earliestTime = some t → r.hitCap = true → r.result.confidence = "low") ∧
    (∀ t : Nat, r.earliestTime = some t → r.hitCap = false →
      r.accountsScanned = r.totalAccounts → r.totalSigs < config.sol_sigs →
      r.result.confidence = "high") ∧
    (∀ t : Nat, r.earliestTime = some t → r.hitCap = false →
      ¬(r.accountsScanned = r.totalAccounts ∧ r.totalSigs < config.sol_sigs) →
      r.result.confidence = "medium") := by
  obtain ⟨accounts, rfl⟩ := estimateFirstSeenSolana_ok hr
  simp only [estimateFirstSeenSolanaCore]
  split
  · exact ⟨fun _ => rfl, fun t ht => by simp at ht, fun t ht => by simp at ht,
      fun t ht => by simp at ht⟩
  · dsimp only
    generalize scanSolAccounts senv config.sol_sigs config.max_time_ms accounts 0
      { earliestTime := none, totalSigs := 0, hitCap := false, accountsScanned := 0
        elapsedMs := senv.initialDurationMs, batches := [] } = st
    refine ⟨?_, ?_, ?_, ?_⟩
    · intro hE; simp [hE]
    · intro t ht hcap; simp [ht, hcap]
    · intro t ht hcap heq hlt
      simp [ht, hcap, heq, hlt]
    · intro t ht hcap hne
      have hcond : ¬(st.accountsScanned = accounts.length ∧ st.totalSigs < config.sol_sigs) := by
        simpa using hne
      simp [ht, hcap, hcond]

theorem solana_confidence_priority_witness :
    (estimateFirstSeenSolana twoAccountEnv standardConfig = .ok twoAccountRun ∧
      twoAccountRun.earliestTime = some 500000 ∧ twoAccountRun.hitCap = false ∧
      twoAccountRun.accountsScanned = twoAccountRun.totalAccounts ∧
      twoAccountRun.totalSigs < standardConfig.sol_sigs) ∧
    twoAccountRun.result.confidence = "high" :=
  ⟨⟨by decide, by decide, by decide, by decide, by decide⟩,
    (solana_confidence_priority twoAccountEnv standardConfig twoAccountRun
        (by decide)).2.2.1 500000 (by decide) (by decide) (by decide) (by decide)⟩

/-! ## Result-shape lemmas (claim C7) -/

theorem optionMap_iso_shape (o : Option Nat) :
    o.map (fun t => isoformatUTC t ++ "Z") = none ∨
      ∃ t : Nat, o.map (fun t => isoformatUTC t ++ "Z") = some (isoformatUTC t ++ "Z") := by
  cases o with
  | none => exact Or.inl rfl
  | some t => exact Or.inr ⟨t, rfl⟩

theorem baseCore_shape (env : BaseEnv) (config : DepthConfig) (cb ts : Nat) :
    ((estimateFirstSeenBaseCore env config cb ts).result.confidence = "low" ∨
      (estimateFirstSeenBaseCore env config cb ts).result.confidence = "medium") ∧
    ((estimateFirstSeenBaseCore env config cb ts).result.timestamp = none ∨
      ∃ t : Nat, (estimateFirstSeenBaseCore env config cb ts).result.timestamp =
        some (isoformatUTC t ++ "Z")) := by
  simp only [estimateFirstSeenBaseCore]
  constructor
  · split
    · exact Or.inl rfl
    · split
      · exact Or.inl rfl
      · split
        · exact Or.inl rfl
        · exact Or.inr rfl
  · exact optionMap_iso_shape _

theorem solCore_shape (env : SolEnv) (config : DepthConfig) (accounts : List String) :
    ((estimateFirstSeenSolanaCore env config accounts).result.confidence = "low" ∨
      (estimateFirstSeenSolanaCore env config accounts).result.confidence = "medium" ∨
      (estimateFirstSeenSolanaCore env config accounts).result.confidence = "high") ∧
    ((estimateFirstSeenSolanaCore env config accounts).result.timestamp = none ∨
      ∃ t : Nat, (estimateFirstSeenSolanaCore env config accounts).result.timestamp =
        some (isoformatUTC t ++ "Z")) := by
  simp only [estimateFirstSeenSolanaCore]
  split
  · exact ⟨Or.inl rfl, Or.inl rfl⟩
  · dsimp only
    constructor
    · split
      · exact Or.inl rfl
      · split
        · exact Or.inl rfl
        · split
          · exact Or.inr (Or.inr rfl)
          · exact Or.inr (Or.inl rfl)
    · exact optionMap_iso_shape _

/-- C7 (counterexample): a Solana run whose earliest block time is the epoch
produces the timestamp string `1970-01-01T00:00:00+00:00Z` — Python's
`isoformat()` already appends the `+00:00` UTC offset, and the code appends a
second UTC designator `Z`, so the string is not a valid ISO-8601 timestamp. -/
theorem timestamp_not_valid_iso8601 :
    (estimateFirstSeenSolana epochSigEnv fastConfig).map (fun r => r.result.timestamp) =
      .ok (some "1970-01-01T00:00:00+00:00Z") ∧
    isValidIso8601UTC "1970-01-01T00:00:00+00:00Z" = false := by
  exact ⟨by decide, by decide⟩

/-- C7 (amended): every `FirstSeenResult` the dispatcher returns has confidence
in {low, medium, high}, and its timestamp is either null or the string
`isoformatUTC t ++ "Z"` for some epoch second `t` — an ISO-8601-style string
whose UTC designator is duplicated (`...+00:00Z`), hence not strictly valid
ISO-8601. -/
theorem first_seen_result_shape (chain : String) (benv : BaseEnv) (senv : SolEnv)
    (config : DepthConfig) (r : FirstSeenResult)
    (hr : estimateFirstSeen chain benv senv config = .ok r) :
    (r.confidence = "low" ∨ r.confidence = "medium" ∨ r.confidence = "high") ∧
    (r.timestamp = none ∨ ∃ t : Nat, r.timestamp = some (isoformatUTC t ++ "Z")) := by
  unfold estimateFirstSeen at hr
  split_ifs at hr
  · obtain ⟨br, hbr, hmap⟩ := except_map_ok hr
    obtain ⟨cb, ts, rfl⟩ := estimateFirstSeenBase_ok hbr
    subst hmap
    obtain ⟨hc, ht⟩ := baseCore_shape benv config cb ts
    refine ⟨?_, ht⟩
    rcases hc with h | h
    · exact Or.inl h
    · exact Or.inr (Or.inl h)
  · obtain ⟨sr, hsr, hmap⟩ := except_map_ok hr
    obtain ⟨accounts, rfl⟩ := estimateFirstSeenSolana_ok hsr
    subst hmap
    obtain ⟨hc, ht⟩ := solCore_shape senv config accounts
    exact ⟨hc, ht⟩
  · have hinj := Except.ok.injEq _ _ ▸ hr
    subst hinj
    exact ⟨Or.inl rfl, Or.inl rfl⟩

theorem first_seen_result_shape_witness :
    (estimateFirstSeen "solana" retryHeavyBaseEnv epochSigEnv fastConfig =
      .ok epochFirstSeenResult) ∧
    ((epochFirstSeenResult.confidence = "low" ∨ epochFirstSeenResult.confidence = "medium" ∨
        epochFirstSeenResult.confidence = "high") ∧
      (epochFirstSeenResult.timestamp = none ∨
        ∃ t : Nat, epochFirstSeenResult.timestamp = some (isoformatUTC t ++ "Z"))) :=
  ⟨by decide,
    first_seen_result_shape "solana" retryHeavyBaseEnv epochSigEnv fastConfig
      epochFirstSeenResult (by decide)⟩

/-! ## Sub-chunking equivalence (claim C8) -/

theorem ascendingBlocks_pairwise :
    ∀ l : List EthLog, ascendingBlocks l = true →
      l.Pairwise (fun a b => a.blockNumber ≤ b.blockNumber) := by
  intro l
  induction l with
  | nil => intro _; exact List.Pairwise.nil
  | cons a rest ih =>
    intro h
    cases rest with
    | nil => simp
    | cons b rest2 =>
      rw [ascendingBlocks] at h
      rw [Bool.and_eq_true, decide_eq_true_eq] at h
      have hp := ih h.2
      rw [List.pairwise_cons]
      refine ⟨?_, hp⟩
      intro x hx
      rcases List.mem_cons.mp hx with rfl | hx2
      · exact h.1
      · have := (List.pairwise_cons.mp hp).1 x hx2
        omega

theorem rangeQuery_nil {db : List EthLog} {f t : Nat} (h : t < f) :
    rangeQuery db f t = [] := by
  refine List.filter_eq_nil_iff.mpr ?_
  intro lg _
  simp only [Bool.and_eq_true, decide_eq_true_eq, not_and]
  omega

theorem rangeQuery_split (db : List EthLog)
    (hs : db.Pairwise (fun a b => a.blockNumber ≤ b.blockNumber))
    (f m t : Nat) (hfm : f ≤ m) (hmt : m ≤ t) :
    rangeQuery db f t = rangeQuery db f m ++ rangeQuery db (m + 1) t := by
  induction db with
  | nil => rfl
  | cons a l ih =>
    rw [List.pairwise_cons] at hs
    obtain ⟨ha, hl⟩ := hs
    have ihl := ih hl
    by_cases hm : a.blockNumber ≤ m
    · have h1 : (decide (f ≤ a.blockNumber) && decide (a.blockNumber ≤ t)) =
          (decide (f ≤ a.blockNumber) && decide (a.blockNumber ≤ m)) := by
        by_cases hf : f ≤ a.blockNumber <;> simp [hf] <;> omega
      have h2 : (decide (m + 1 ≤ a.blockNumber) && decide (a.blockNumber ≤ t)) = false := by
        simp
        omega
      simp only [rangeQuery, List.filter_cons] at ihl ⊢
      rw [h1, h2]
      cases hdec : (decide (f ≤ a.blockNumber) && decide (a.blockNumber ≤ m)) with
      | false => exact ihl
      | true => rw [ihl]; rfl
    · have h1 : (decide (f ≤ a.blockNumber) && decide (a.blockNumber ≤ m)) = false := by
        simp
        omega
      have h2 : (decide (f ≤ a.blockNumber) && decide (a.blockNumber ≤ t)) =
          (decide (m + 1 ≤ a.blockNumber) && decide (a.blockNumber ≤ t)) := by
        by_cases hbt : a.blockNumber ≤ t <;> simp [hbt] <;> omega
      have hleft : rangeQuery l f m = [] := by
        refine List.filter_eq_nil_iff.mpr ?_
        intro lg hlg
        have := ha lg hlg
        simp only [Bool.and_eq_true, decide_eq_true_eq, not_and]
        omega
      have hfull : rangeQuery l f t = rangeQuery l (m + 1) t := by
        refine List.filter_congr ?_
        intro lg hlg
        have := ha lg hlg
        by_cases hbt : lg.blockNumber ≤ t <;> simp [hbt] <;> omega
      simp only [rangeQuery, List.filter_cons] at hleft hfull ⊢
      rw [h1, h2, hleft, hfull]
      rfl

theorem chunkedFetch_eq (db : List EthLog)
    (hs : db.Pairwise (fun a b => a.blockNumber ≤ b.blockNumber)) :
    ∀ (fuel cursor t : Nat), t + 1 - cursor ≤ fuel →
      chunkedFetch db fuel cursor t = rangeQuery db cursor t := by
  intro fuel
  induction fuel with
  | zero =>
    intro cursor t hf
    rw [chunkedFetch, rangeQuery_nil (by omega)]
  | succ fuel ih =>
    intro cursor t hf
    rw [chunkedFetch]
    split
    · rename_i hct
      rw [ih (min (cursor + FALLBACK_CHUNK_SIZE) t + 1) t (by omega)]
      rw [← rangeQuery_split db hs cursor (min (cursor + FALLBACK_CHUNK_SIZE) t) t
        (by omega) (by omega)]
    · rename_i hct
      rw [rangeQuery_nil (by omega)]

theorem subRanges_cover :
    ∀ (fuel cursor t : Nat), t + 1 - cursor ≤ fuel →
      consecutiveCover (subRanges fuel cursor t) cursor t := by
  intro fuel
  induction fuel with
  | zero =>
    intro cursor t hf
    rw [subRanges]
    show t < cursor
    omega
  | succ fuel ih =>
    intro cursor t hf
    rw [subRanges]
    split
    · rename_i hct
      exact ⟨rfl, by omega, by omega, ih _ _ (by omega)⟩
    · rename_i hct
      show t < cursor
      omega

theorem chunkedFetch_flatten (db : List EthLog) :
    ∀ (fuel cursor t : Nat),
      chunkedFetch db fuel cursor t =
        ((subRanges fuel cursor t).map (fun p => rangeQuery db p.1 p.2)).flatten := by
  intro fuel
  induction fuel with
  | zero => intro cursor t; rfl
  | succ fuel ih =>
    intro cursor t
    rw [chunkedFetch, subRanges]
    split
    · rw [ih]
      rfl
    · rfl

/-- C8: when the direct call fails with a "range too large" error over a span
larger than the minimum chunk, the fallback returns exactly the concatenation
of the consecutive sub-range queries, which tile `[fromBlock, toBlock]` with no
gap and no overlap; provided the node serves logs ordered by block number, the
result is exactly what a single successful direct call over the full range
would have returned (same `.ok` list shape, transparent to the caller). -/
theorem chunked_fallback_transparent (db : List EthLog) (fromBlock toBlock : Nat)
    (hs : ascendingBlocks db = true) (hspan : toBlock - fromBlock > MIN_CHUNK) :
    eth_get_logs db .rangeError fromBlock toBlock = .ok (rangeQuery db fromBlock toBlock) ∧
    eth_get_logs db .rangeError fromBlock toBlock = eth_get_logs db .success fromBlock toBlock ∧
    chunkedFetch db (toBlock + 2 - fromBlock) fromBlock toBlock =
      ((subRanges (toBlock + 2 - fromBlock) fromBlock toBlock).map
        (fun p => rangeQuery db p.1 p.2)).flatten ∧
    consecutiveCover (subRanges (toBlock + 2 - fromBlock) fromBlock toBlock)
      fromBlock toBlock := by
  have hpair := ascendingBlocks_pairwise db hs
  have heq := chunkedFetch_eq db hpair (toBlock + 2 - fromBlock) fromBlock toBlock (by omega)
  have h1 : eth_get_logs db .rangeError fromBlock toBlock =
      .ok (rangeQuery db fromBlock toBlock) := by
    rw [eth_get_logs, if_neg (by omega), heq]
  exact ⟨h1, by rw [h1]; rfl, chunkedFetch_flatten db _ _ _,
    subRanges_cover _ _ _ (by omega)⟩

theorem chunked_fallback_transparent_witness :
    (ascendingBlocks [mkLog 100 "0xa", mkLog 1500 "0xb", mkLog 3000 "0xc"] = true ∧
      2500 - 0 > MIN_CHUNK) ∧
    eth_get_logs [mkLog 100 "0xa", mkLog 1500 "0xb", mkLog 3000 "0xc"] .rangeError 0 2500 =
      .ok (rangeQuery [mkLog 100 "0xa", mkLog 1500 "0xb", mkLog 3000 "0xc"] 0 2500) :=
  ⟨⟨by decide, by decide⟩,
    (chunked_fallback_transparent [mkLog 100 "0xa", mkLog 1500 "0xb", mkLog 3000 "0xc"]
      0 2500 (by decide) (by decide)).1⟩

/-! ## Block-string timestamps (claim C10) -/

theorem parseTransferLogs_mem {logs : List EthLog} {dir : String} {rec : TransferRecord}
    (h : rec ∈ parseTransferLogs logs dir) :
    ∃ lg ∈ logs, rec.timestamp = some ("block:" ++ toString lg.blockNumber) ∧
      rec.txHash = lg.transactionHash := by
  simp only [parseTransferLogs, List.mem_map] at h
  obtain ⟨lg, hmem, rfl⟩ := h
  exact ⟨lg, hmem, rfl, rfl⟩

theorem mem_insertDescBy {key : α → String} {a x : α} :
    ∀ {l : List α}, x ∈ insertDescBy key a l → x = a ∨ x ∈ l := by
  intro l
  induction l with
  | nil => intro h; rw [insertDescBy] at h; simpa using h
  | cons b bs ih =>
    intro h
    rw [insertDescBy] at h
    split at h
    · rcases List.mem_cons.mp h with rfl | h2
      · exact Or.inl rfl
      · exact Or.inr h2
    · rcases List.mem_cons.mp h with rfl | h2
      · exact Or.inr (List.mem_cons_self _ _)
      · rcases ih h2 with h3 | h3
        · exact Or.inl h3
        · exact Or.inr (List.mem_cons_of_mem _ h3)

theorem mem_sortDescBy {key : α → String} {x : α} :
    ∀ {l : List α}, x ∈ sortDescBy key l → x ∈ l := by
  intro l
  induction l with
  | nil => intro h; simpa [sortDescBy] using h
  | cons a as ih =>
    intro h
    rw [sortDescBy] at h
    rcases mem_insertDescBy h with rfl | h2
    · exact List.mem_cons_self _ _
    · exact List.mem_cons_of_mem _ (ih h2)

theorem charge_traceable (st : BaseTransferState) (env : TransferEnv) (reqs : Nat)
    (h : recordsTraceable st) : recordsTraceable (st.charge env reqs) := h

theorem inboundStep_traceable (env : TransferEnv) (b : BaseTransferBudget)
    (chunkStart cursor : Int) (st : BaseTransferState) (h : recordsTraceable st) :
    recordsTraceable (inboundStep env b chunkStart cursor st) := by
  simp only [inboundStep]
  split
  · split
    · rename_i logs heq
      intro rec hrec
      simp only [List.mem_append] at hrec
      rcases hrec with hin | hout
      · rcases hin with hold | hnew
        · obtain ⟨lg, hlg, hts⟩ := h rec (List.mem_append.mpr (Or.inl hold))
          exact ⟨lg, List.mem_append.mpr (Or.inl hlg), hts⟩
        · obtain ⟨lg, hlg, hts⟩ := parseTransferLogs_mem hnew
          exact ⟨lg, List.mem_append.mpr (Or.inr hlg), hts⟩
      · obtain ⟨lg, hlg, hts⟩ := h rec (List.mem_append.mpr (Or.inr hout))
        exact ⟨lg, List.mem_append.mpr (Or.inl hlg), hts⟩
    · exact h
  · exact h

theorem outboundFetch_traceable (env : TransferEnv) (chunkStart cursor : Int)
    (st : BaseTransferState) (h : recordsTraceable st) :
    recordsTraceable (outboundFetch env chunkStart cursor st) := by
  simp only [outboundFetch]
  split
  · rename_i logs heq
    intro rec hrec
    simp only [List.mem_append] at hrec
    rcases hrec with hin | hout
    · obtain ⟨lg, hlg, hts⟩ := h rec (List.mem_append.mpr (Or.inl hin))
      exact ⟨lg, List.mem_append.mpr (Or.inl hlg), hts⟩
    · rcases hout with hold | hnew
      · obtain ⟨lg, hlg, hts⟩ := h rec (List.mem_append.mpr (Or.inr hold))
        exact ⟨lg, List.mem_append.mpr (Or.inl hlg), hts⟩
      · obtain ⟨lg, hlg, hts⟩ := parseTransferLogs_mem hnew
        exact ⟨lg, List.mem_append.mpr (Or.inr hlg), hts⟩
  · exact h

theorem baseTransferLoop_traceable (env : TransferEnv) (b : BaseTransferBudget) :
    ∀ (fuel : Nat) (cursor : Int) (st : BaseTransferState), recordsTraceable st →
      recordsTraceable (baseTransferLoop env b fuel cursor st) := by
  intro fuel
  induction fuel with
  | zero => intro cursor st h; exact h
  | succ fuel ih =>
    intro cursor st h
    simp only [baseTransferLoop]
    split
    · split
      · exact h
      · split
        · exact h
        · have hin := inboundStep_traceable env b (max 0 (cursor - b.chunk_size)) cursor st h
          split
          · split
            · exact hin
            · exact ih _ _ (outboundFetch_traceable env (max 0 (cursor - b.chunk_size)) cursor
                _ hin)
          · exact ih _ _ hin
    · exact h

/-- C10: every record the Base transfer scanner returns carries the literal
string `block:<n>` as its timestamp, where `n` is the decimal block number of
the log it was decoded from (and its hash is that log's hash) — the scanner
never resolves block numbers to wall-clock times on this path. -/
theorem base_transfer_timestamps_are_block_strings (env : TransferEnv)
    (decimals limit : Nat) (r : TransferRun)
    (hr : getRecentTransfersBase env decimals limit = .ok r) :
    ∀ rec ∈ r.inbound ++ r.outbound, ∃ lg ∈ r.rawLogs,
      rec.timestamp = some ("block:" ++ toString lg.blockNumber) ∧
        rec.txHash = lg.transactionHash := by
  obtain ⟨currentBlock, rfl⟩ := getRecentTransfersBase_ok hr
  simp only [getRecentTransfersBaseCore]
  intro rec hrec
  have htr : recordsTraceable (baseTransferLoop env baseTransferBudget (currentBlock + 1)
      (currentBlock : Int)
      { callsUsed := 1, requests := env.blockNumber.requests, elapsedMs := env.durationMs 0
        inbound := [], outbound := [], truncated := false, exitReason := .chainEnd
        rawLogs := [] }) := by
    apply baseTransferLoop_traceable
    intro rec2 hrec2
    simp at hrec2
  rcases List.mem_append.mp hrec with hin | hout
  · exact htr rec (List.mem_append.mpr (Or.inl (mem_sortDescBy (List.mem_of_mem_take hin))))
  · exact htr rec (List.mem_append.mpr (Or.inr (mem_sortDescBy (List.mem_of_mem_take hout))))

theorem base_transfer_timestamps_witness :
    (getRecentTransfersBase twoDigitBoundaryEnv 18 5 = .ok twoDigitRun ∧
      { timestamp := some "block:9", amountRaw := 1000, txHash := "0xb"
        counterparty := none : TransferRecord } ∈ twoDigitRun.inbound ++ twoDigitRun.outbound) ∧
    (∃ lg ∈ twoDigitRun.rawLogs,
      ({ timestamp := some "block:9", amountRaw := 1000, txHash := "0xb"
         counterparty := none : TransferRecord }).timestamp =
          some ("block:" ++ toString lg.blockNumber) ∧
        ({ timestamp := some "block:9", amountRaw := 1000, txHash := "0xb"
           counterparty := none : TransferRecord }).txHash = lg.transactionHash) :=
  ⟨⟨by decide, by decide⟩,
    base_transfer_timestamps_are_block_strings twoDigitBoundaryEnv 18 5 twoDigitRun
      (by decide) _ (by decide)⟩

/-! ## Minimum block time lemmas (claim C6) -/

theorem listMinNat_eq_none {l : List Nat} (h : listMinNat l = none) : l = [] := by
  cases l with
  | nil => rfl
  | cons t rest =>
    rw [listMinNat] at h
    cases hr : listMinNat rest <;> rw [hr] at h <;> simp at h

theorem listMinNat_le : ∀ (l : List Nat) (m : Nat), listMinNat l = some m →
    ∀ x ∈ l, m ≤ x := by
  intro l
  induction l with
  | nil => intro m h; simp [listMinNat] at h
  | cons t rest ih =>
    intro m h x hx
    rw [listMinNat] at h
    rcases List.mem_cons.mp hx with rfl | hx2
    · cases hr : listMinNat rest <;> rw [hr] at h <;> simp at h <;> omega
    · cases hr : listMinNat rest with
      | none => rw [listMinNat_eq_none hr] at hx2; simp at hx2
      | some n =>
        rw [hr] at h
        simp at h
        have := ih n hr x hx2
        omega

theorem listMinNat_append (xs ys : List Nat) :
    listMinNat (xs ++ ys) =
      match listMinNat xs, listMinNat ys with
      | none, o => o
      | some m, none => some m
      | some m, some n => some (min m n) := by
  induction xs with
  | nil =>
    rw [List.nil_append]
    cases listMinNat ys <;> rfl
  | cons t xs ih =>
    rw [List.cons_append, listMinNat, ih, listMinNat]
    cases hx : listMinNat xs <;> cases hy : listMinNat ys <;> simp <;> congr 1 <;> omega

theorem descending_min :
    ∀ b : List SigInfo, blockTimesDescending b = true → b ≠ [] →
      ∃ tl : Nat, b.getLast?.bind (·.blockTime) = some tl ∧
        listMinNat (b.filterMap (·.blockTime)) = some tl := by
  intro b
  induction b with
  | nil => intro _ hne; exact absurd rfl hne
  | cons a l ih =>
    intro h _
    cases l with
    | nil =>
      simp only [blockTimesDescending] at h
      cases ha : a.blockTime with
      | none => rw [ha] at h; simp at h
      | some t => exact ⟨t, by simp [ha], by simp [List.filterMap_cons, ha, listMinNat]⟩
    | cons b2 l2 =>
      simp only [blockTimesDescending, Bool.and_eq_true, decide_eq_true_eq] at h
      obtain ⟨⟨⟨haS, hbS⟩, hba⟩, hdesc⟩ := h
      obtain ⟨tl, h1, h2⟩ := ih (by
        cases l2 with
        | nil => simpa [blockTimesDescending] using hbS
        | cons c l3 =>
          simp only [blockTimesDescending, Bool.and_eq_true, decide_eq_true_eq] at hdesc ⊢
          exact hdesc) (by simp)
      cases ha : a.blockTime with
      | none => rw [ha] at haS; simp at haS
      | some ta =>
        refine ⟨tl, ?_, ?_⟩
        · rw [List.getLast?_cons_cons]
          exact h1
        · have hble : tl ≤ ta := by
            cases hb : b2.blockTime with
            | none => rw [hb] at hbS; simp at hbS
            | some tb =>
              have hmem : tb ∈ (b2 :: l2).filterMap (·.blockTime) := by
                simp [List.filterMap_cons, hb]
              have htb := listMinNat_le _ _ h2 tb hmem
              rw [ha, hb] at hba
              simp at hba
              omega
          rw [List.filterMap_cons, ha, listMinNat, h2]
          simp
          omega

theorem updateEarliest_batches (o : Option Nat) (st1 : SolScanState) :
    (updateEarliest o st1).batches = st1.batches := by
  cases o with
  | none => rfl
  | some t => simp only [updateEarliest]; split <;> rfl

theorem solAccountStep_batches (sigs : List SigInfo) (bl : Nat) (st1 : SolScanState) :
    (solAccountStep sigs bl st1).batches = st1.batches := by
  rw [solAccountStep]
  split
  · rfl
  · split
    · show (updateEarliest _ st1).batches = st1.batches
      exact updateEarliest_batches _ _
    · exact updateEarliest_batches _ _

theorem updateEarliest_earliest (o : Option Nat) (st1 : SolScanState) :
    (updateEarliest o st1).earliestTime =
      match st1.earliestTime, o with
      | none, o2 => o2
      | some m, none => some m
      | some m, some n => some (min m n) := by
  cases o with
  | none => cases hE : st1.earliestTime <;> simp [updateEarliest, hE]
  | some t =>
    cases hE : st1.earliestTime with
    | none => simp [updateEarliest, hE]
    | some m =>
      by_cases hc : t < m
      · simp [updateEarliest, hE, hc]
        omega
      · simp [updateEarliest, hE, hc]
        omega

theorem solAccountStep_earliest (sigs : List SigInfo) (bl : Nat) (st1 : SolScanState)
    (hdesc : blockTimesDescending sigs = true) :
    (solAccountStep sigs bl st1).earliestTime =
      match st1.earliestTime, listMinNat (sigs.filterMap (·.blockTime)) with
      | none, o2 => o2
      | some m, none => some m
      | some m, some n => some (min m n) := by
  rw [solAccountStep]
  split
  · rename_i hemp
    have : sigs = [] := by
      cases sigs with
      | nil => rfl
      | cons s rest => simp at hemp
    subst this
    cases st1.earliestTime <;> rfl
  · rename_i hemp
    have hne : sigs ≠ [] := by intro h2; subst h2; simp at hemp
    obtain ⟨tl, h1, h2⟩ := descending_min sigs hdesc hne
    rw [h2]
    split
    · show (updateEarliest _ st1).earliestTime = _
      rw [h1, updateEarliest_earliest]
    · rw [h1, updateEarliest_earliest]

theorem scanSol_batches_extend (env : SolEnv) (maxSigs maxTimeMs : Nat) :
    ∀ (accounts : List String) (idx : Nat) (st : SolScanState),
      ∃ suffix, (scanSolAccounts env maxSigs maxTimeMs accounts idx st).batches =
        st.batches ++ suffix := by
  intro accounts
  induction accounts with
  | nil => intro idx st; exact ⟨[], by simp [scanSolAccounts]⟩
  | cons pubkey rest ih =>
    intro idx st
    simp only [scanSolAccounts]
    split
    · exact ⟨[], by simp⟩
    · split
      · exact ⟨[], by simp⟩
      · split
        · exact ih _ _
        · rename_i sigs heq
          obtain ⟨suf, hsuf⟩ := ih (idx + 1)
            (solAccountStep sigs (min (maxSigs - st.totalSigs) 1000)
              { st with accountsScanned := st.accountsScanned + 1
                        totalSigs := st.totalSigs + sigs.length
                        elapsedMs := st.elapsedMs + env.callDurationMs idx
                        batches := st.batches ++ [sigs] })
          refine ⟨[sigs] ++ suf, ?_⟩
          rw [hsuf, solAccountStep_batches]
          simp

theorem scanSol_min (env : SolEnv) (maxSigs maxTimeMs : Nat) :
    ∀ (accounts : List String) (idx : Nat) (st : SolScanState),
      (∀ b ∈ (scanSolAccounts env maxSigs maxTimeMs accounts idx st).batches,
        blockTimesDescending b = true) →
      st.earliestTime =
        listMinNat ((st.batches.map (fun b => b.filterMap (·.blockTime))).flatten) →
      (scanSolAccounts env maxSigs maxTimeMs accounts idx st).earliestTime =
        listMinNat (((scanSolAccounts env maxSigs maxTimeMs accounts idx st).batches.map
          (fun b => b.filterMap (·.blockTime))).flatten) := by
  intro accounts
  induction accounts with
  | nil => intro idx st _ hinv; exact hinv
  | cons pubkey rest ih =>
    intro idx st
    simp only [scanSolAccounts]
    split
    · intro _ hinv; exact hinv
    · split
      · intro _ hinv; exact hinv
      · split
        · intro hdesc hinv; exact ih _ _ hdesc hinv
        · rename_i sigs heq
          intro hdesc hinv
          apply ih _ _ hdesc
          -- entry invariant for the updated state
          have hsigs : blockTimesDescending sigs = true := by
            obtain ⟨suf, hsuf⟩ := scanSol_batches_extend env maxSigs maxTimeMs rest (idx + 1)
              (solAccountStep sigs (min (maxSigs - st.totalSigs) 1000)
                { st with accountsScanned := st.accountsScanned + 1
                          totalSigs := st.totalSigs + sigs.length
                          elapsedMs := st.elapsedMs + env.callDurationMs idx
                          batches := st.batches ++ [sigs] })
            apply hdesc
            rw [hsuf, solAccountStep_batches]
            simp
          rw [solAccountStep_batches, solAccountStep_earliest _ _ _ hsigs]
          show (match st.earliestTime, listMinNat (sigs.filterMap (·.blockTime)) with
            | none, o2 => o2
            | some m, none => some m
            | some m, some n => some (min m n)) =
            listMinNat ((((st.batches ++ [sigs]).map
              (fun b => b.filterMap (·.blockTime))).flatten))
          rw [List.map_append, List.flatten_append, listMinNat_append, ← hinv]
          simp [listMinNat_append]

/-- C6: whenever the Solana estimator returns a non-null timestamp, that
timestamp is the ISO rendering of `earliestTime`, and `earliestTime` is the
minimum block time over all signatures fetched across all scanned token
accounts — provided each fetched page is ordered newest-first with block times
present (the `getSignaturesForAddress` contract). -/
theorem solana_timestamp_is_min (senv : SolEnv) (config : DepthConfig) (r : SolRun)
    (hr : estimateFirstSeenSolana senv config = .ok r)
    (hdesc : ∀ b ∈ r.batches, blockTimesDescending b = true) :
    r.earliestTime =
      listMinNat ((r.batches.map (fun b => b.filterMap (·.blockTime))).flatten) ∧
    r.result.timestamp = r.earliestTime.map (fun t => isoformatUTC t ++ "Z") := by
  obtain ⟨accounts, rfl⟩ := estimateFirstSeenSolana_ok hr
  revert hdesc
  simp only [estimateFirstSeenSolanaCore]
  split
  · intro _
    exact ⟨rfl, rfl⟩
  · intro hdesc
    dsimp only at hdesc ⊢
    refine ⟨?_, rfl⟩
    exact scanSol_min senv config.sol_sigs config.max_time_ms accounts 0 _ hdesc rfl

theorem solana_timestamp_is_min_witness :
    (estimateFirstSeenSolana twoAccountEnv standardConfig = .ok twoAccountRun ∧
      (∀ b ∈ twoAccountRun.batches, blockTimesDescending b = true)) ∧
    (twoAccountRun.earliestTime =
        listMinNat ((twoAccountRun.batches.map (fun b => b.filterMap (·.blockTime))).flatten) ∧
      twoAccountRun.result.timestamp =
        twoAccountRun.earliestTime.map (fun t => isoformatUTC t ++ "Z")) :=
  ⟨⟨by decide, by decide⟩,
    solana_timestamp_is_min twoAccountEnv standardConfig twoAccountRun
      (by decide) (by decide)⟩

end PositionReceipt
